import Mathlib

/-!
Verification development for the bulk-operation orchestrator of the repository
(`src/group-creator.js` and `src/message-sender.js`), shallowly embedded in Lean.

JS strings are modelled as `List Char`, JS numbers occurring in integer-valued
positions as `Int` (with `Nat` for loop counters and list lengths), and every
call to `Math.random()` as a rational draw `r` with `0 ≤ r < 1` supplied by an
explicit stream.  The WhatsApp client is an external collaborator and is
modelled as an oracle mapping the unit index to `Except String String`
(error message, or the handle id of the created group / sent message).
The progress callback is modelled as an emitted event (the embedding assumes
the callback itself does not throw).  Each run returns its result together
with an observation trace of waits, collaborator calls, progress events and
cooldowns, in the order the source produces them.
-/

namespace Bos

/-- JS defaulting `x || d` for an optional integer option: `undefined` and `0`
are falsy and fall back to the default. -/
def jsOr (v : Option Int) (d : Int) : Int :=
  match v with
  | none => d
  | some x => if x = 0 then d else x

/-- `Math.ceil(a / b)` for integer-valued JS numbers (exact rational division,
then ceiling). -/
def jsCeilDiv (a b : Int) : Int := Int.ceil ((a : ℚ) / (b : ℚ))

/-- Decimal digit character. -/
def digitChar (n : Nat) : Char := Char.ofNat (48 + n)

/-- Fuel-driven decimal rendering helper (most significant digit first). -/
def natDecimalAux : Nat → Nat → List Char
  | 0, _ => []
  | fuel + 1, n =>
    if n < 10 then [digitChar n]
    else natDecimalAux fuel (n / 10) ++ [digitChar (n % 10)]

/-- JS `Number.prototype.toString()` for a nonnegative integer-valued number:
its decimal digits, most significant first. -/
def natDecimal (n : Nat) : List Char := natDecimalAux (n + 1) n

/-- JS `Number.prototype.toString()` for an integer-valued number. -/
def intDecimal (n : Int) : List Char :=
  if n < 0 then '-' :: natDecimal (-n).toNat else natDecimal n.toNat

/-- JS `String.prototype.padStart(targetLen, c)`: left-pad with `c` up to
`targetLen`; a string already long enough is returned unchanged. -/
def padStart (s : List Char) (targetLen : Nat) (c : Char) : List Char :=
  List.replicate (targetLen - s.length) c ++ s

/-- ASCII decimal digit test (`\d` of the source regex). -/
def isDigitChar (c : Char) : Bool := decide ('0' ≤ c) && decide (c ≤ '9')

/-- The fixed domain suffix of the source regex `^\d+@c\.us$`. -/
def phoneSuffix : List Char := ['@', 'c', '.', 'u', 's']

/-- Test of the source regex `^\d+@c\.us$`: one or more decimal digits
followed by the literal suffix `@c.us`. -/
def matchesPhonePattern (s : List Char) : Bool :=
  let k := s.length - 5
  (k != 0) && (s.drop k == phoneSuffix) && (s.take k).all isDigitChar

/-- `validateParticipants` from `src/group-creator.js` (lines 219-236):
rejects an empty list, more than 256 participants, and any entry failing the
phone-number regex. -/
def validateParticipants (participants : List (List Char)) : Except String Unit :=
  if participants.length = 0 then .error "No participants provided"
  else if participants.length > 256 then
    .error "Too many participants. WhatsApp allows a maximum of 256 participants."
  else
    let invalidNumbers := participants.filter (fun number => !(matchesPhonePattern number))
    if invalidNumbers.length > 0 then .error "Invalid phone numbers detected"
    else .ok ()

/-- The stepped base delay computed by `getRateLimit` in
`src/group-creator.js` (lines 244-257): 3000 ms, raised to 5000/8000/12000 as
`count` passes 10/20/30. -/
def steppedBaseDelay (count : Int) : ℚ :=
  let d : ℚ := 3000
  let d := if count > 10 then 5000 else d
  let d := if count > 20 then 8000 else d
  let d := if count > 30 then 12000 else d
  d

/-- `getRateLimit` from `src/group-creator.js` (lines 244-262): the stepped
base delay times the random factor `0.5 + Math.random()`, floored.
`r` is the `Math.random()` draw. -/
def getRateLimit (count : Int) (r : ℚ) : Int :=
  Int.floor (steppedBaseDelay count * ((1 : ℚ) / 2 + r))

/-- `ANTI_BAN.MIN_RANDOM_DELAY` from `src/message-sender.js`. -/
def MIN_RANDOM_DELAY : Int := 1000

/-- `ANTI_BAN.MAX_RANDOM_DELAY` from `src/message-sender.js`. -/
def MAX_RANDOM_DELAY : Int := 6000

/-- `ANTI_BAN.BATCH_SIZE` from `src/message-sender.js`. -/
def ANTI_BAN_BATCH_SIZE : Nat := 26

/-- `ANTI_BAN.BATCH_COOLDOWN` (ms) from `src/message-sender.js`. -/
def ANTI_BAN_BATCH_COOLDOWN : Int := 300000

/-- `getRandomizedDelay` from `src/message-sender.js` (lines 77-88):
base delay in ms plus `Math.floor(r * (MAX - MIN) + MIN)`. -/
def getRandomizedDelay (baseDelaySeconds : Int) (r : ℚ) : Int :=
  let baseDelay := baseDelaySeconds * 1000
  let randomOffset :=
    Int.floor (r * ((MAX_RANDOM_DELAY : ℚ) - (MIN_RANDOM_DELAY : ℚ)) + (MIN_RANDOM_DELAY : ℚ))
  baseDelay + randomOffset

/-- One entry of `ANTI_BAN.MESSAGE_VARIATIONS`: each source object carries
exactly one of the keys `append`, `prepend`, `replace`/`with`, `invisible`. -/
inductive Variation where
  | append (s : List Char)
  | prepend (s : List Char)
  | replaceRule (target repl : Char)
  | invisible (c : Char)
deriving Repr, DecidableEq

/-- Zero-width space U+200B. -/
def zwsp : Char := Char.ofNat 0x200B

/-- Zero-width non-joiner U+200C. -/
def zwnj : Char := Char.ofNat 0x200C

/-- `ANTI_BAN.MESSAGE_VARIATIONS` from `src/message-sender.js` (lines 19-30),
in source order. -/
def MESSAGE_VARIATIONS : List Variation :=
  [ .append []
  , .append [' ']
  , .append ['.']
  , .prepend []
  , .prepend [' ']
  , .replaceRule 'a' 'а'
  , .replaceRule 'e' 'е'
  , .replaceRule 'o' 'о'
  , .invisible zwsp
  , .invisible zwnj ]

/-- JS `String.prototype.replace(target, repl)` with a one-character pattern:
replaces only the first occurrence (or nothing if absent). -/
def replaceFirst (target repl : Char) : List Char → List Char
  | [] => []
  | c :: cs => if c = target then repl :: cs else c :: replaceFirst target repl cs

/-- The random insertion offset used by the invisible-marker rule:
`Math.floor(r * len)`. -/
def invisiblePosition (len : Nat) (r : ℚ) : Nat :=
  (Int.floor (r * (len : ℚ))).toNat

/-- `addMessageVariation` from `src/message-sender.js` (lines 42-70).
`r1` is the `Math.random()` draw selecting the variation rule, `r2` the draw
used (only) by the invisible-marker rules for the insertion offset. -/
def addMessageVariation (originalMessage : List Char) (r1 r2 : ℚ) : List Char :=
  let idx := (Int.floor (r1 * (MESSAGE_VARIATIONS.length : ℚ))).toNat
  match MESSAGE_VARIATIONS.getD idx (.append []) with
  | .append s => originalMessage ++ s
  | .prepend s => s ++ originalMessage
  | .replaceRule target repl => replaceFirst target repl originalMessage
  | .invisible c =>
    let position := invisiblePosition originalMessage.length r2
    originalMessage.take position ++ [c] ++ originalMessage.drop position

/-! ## Group-creation path (`src/group-creator.js`) -/

/-- Observable events of a `createMultipleGroups` run, in source order:
the pacing wait before a unit, the `client.createGroup` call, the progress
callback invocation, and the inter-batch cooldown callback and wait. -/
inductive GEvent where
  | waitEv (ms : Int)
  | callCreate (idx : Int) (name : List Char)
  | progressEv (current : Int) (total : Nat) (success failed : Nat)
  | cooldownEv (seconds : Int) (nextBatch : Int)
  | cooldownWaitEv (ms : Int)
deriving Repr, DecidableEq

/-- One entry of `results.groups`. -/
structure GroupRecord where
  name : List Char
  number : Int
  id : Option String
  success : Bool
  error : Option String
deriving Repr, DecidableEq

/-- The `results` object returned by `createMultipleGroups`. -/
structure GroupResults where
  success : Nat
  failed : Nat
  groups : List GroupRecord
deriving Repr, DecidableEq

/-- Mutable state threaded through the `createMultipleGroups` loops, plus the
observation trace. -/
structure GroupState where
  success : Nat
  failed : Nat
  groups : List GroupRecord
  trace : List GEvent

/-- The `options` argument of `createMultipleGroups`: absent fields are
`none` (JS `undefined`). -/
structure GroupOptions where
  startingNumber : Option Int := none
  delaySeconds : Option Int := none
  padNumbers : Bool := false
  batchSize : Option Int := none
  batchCooldownSeconds : Option Int := none

/-- The `settings` object after defaulting. -/
structure GroupSettings where
  startingNumber : Int
  delaySeconds : Int
  padNumbers : Bool
  batchSize : Int
  batchCooldownSeconds : Int

/-- The defaulting of `options` into `settings` in `createMultipleGroups`
(lines 67-73); every numeric default uses JS `||`. -/
def mkSettings (o : GroupOptions) : GroupSettings :=
  { startingNumber := jsOr o.startingNumber 1
    delaySeconds := jsOr o.delaySeconds 0
    padNumbers := o.padNumbers
    batchSize := jsOr o.batchSize 10
    batchCooldownSeconds := jsOr o.batchCooldownSeconds 120 }

/-- The group name assembled for unit `currentIndex` (lines 114-124):
`groupPrefix + " " + formattedNumber`, where the number is zero-padded to
`maxDigits` when `padNumbers` is set. -/
def groupNameAt (s : GroupSettings) (pfx : List Char) (maxDigits : Nat)
    (currentIndex : Int) : List Char :=
  let groupNumber := s.startingNumber + currentIndex
  let formattedNumber :=
    if s.padNumbers then padStart (intDecimal groupNumber) maxDigits '0'
    else intDecimal groupNumber
  pfx ++ ' ' :: formattedNumber

/-- The record pushed onto `results.groups` for unit `currentIndex`,
determined by the collaborator oracle (lines 152-168). -/
def mkGroupRecord (s : GroupSettings) (pfx : List Char) (maxDigits : Nat)
    (oracle : Int → Except String String) (currentIndex : Int) : GroupRecord :=
  match oracle currentIndex with
  | .ok gid =>
    { name := groupNameAt s pfx maxDigits currentIndex
      number := s.startingNumber + currentIndex
      id := some gid, success := true, error := none }
  | .error e =>
    { name := groupNameAt s pfx maxDigits currentIndex
      number := s.startingNumber + currentIndex
      id := none, success := false, error := some e }

/-- The body of the per-unit loop of `createMultipleGroups`
(lines 112-185): optional pacing wait, the `client.createGroup` attempt with
its success/failure recording, and the progress callback. -/
def groupStep (s : GroupSettings) (pfx : List Char) (count : Nat) (maxDigits : Nat)
    (oracle : Int → Except String String) (rnd : Nat → ℚ)
    (st : GroupState) (currentIndex : Int) : GroupState :=
  let st :=
    if currentIndex > 0 then
      let waitTime :=
        if s.delaySeconds > 0 then s.delaySeconds * 1000
        else getRateLimit (currentIndex + 1) (rnd currentIndex.toNat)
      { st with trace := st.trace ++ [GEvent.waitEv waitTime] }
    else st
  let st :=
    { st with trace := st.trace ++ [GEvent.callCreate currentIndex (groupNameAt s pfx maxDigits currentIndex)] }
  let st :=
    match oracle currentIndex with
    | .ok gid =>
      { st with success := st.success + 1
                groups := st.groups ++ [({ name := groupNameAt s pfx maxDigits currentIndex
                                           number := s.startingNumber + currentIndex
                                           id := some gid, success := true, error := none } : GroupRecord)] }
    | .error e =>
      { st with failed := st.failed + 1
                groups := st.groups ++ [({ name := groupNameAt s pfx maxDigits currentIndex
                                           number := s.startingNumber + currentIndex
                                           id := none, success := false, error := some e } : GroupRecord)] }
  { st with trace := st.trace ++ [GEvent.progressEv (currentIndex + 1) count st.success st.failed] }

/-- The inter-batch cooldown of `createMultipleGroups` (lines 189-208):
a cooldown progress event followed by the cooldown wait. -/
def groupCooldown (s : GroupSettings) (st : GroupState) (batchIndex : Int) : GroupState :=
  let st := { st with trace := st.trace ++ [GEvent.cooldownEv s.batchCooldownSeconds (batchIndex + 2)] }
  { st with trace := st.trace ++ [GEvent.cooldownWaitEv (s.batchCooldownSeconds * 1000)] }

/-- The batch loop of `createMultipleGroups` (lines 101-209), after
validation has passed. -/
def groupLoop (s : GroupSettings) (pfx : List Char) (count : Nat) (maxDigits : Nat)
    (oracle : Int → Except String String) (rnd : Nat → ℚ) : GroupState :=
  let totalBatches : Int := jsCeilDiv (count : Int) s.batchSize
  (List.range totalBatches.toNat).foldl
    (fun st (k : Nat) =>
      let batchIndex : Int := (k : Int)
      let batchStart := batchIndex * s.batchSize
      let batchEnd := min (batchStart + s.batchSize) (count : Int)
      let currentBatchSize := (batchEnd - batchStart).toNat
      let st2 := (List.range currentBatchSize).foldl
        (fun st (i : Nat) => groupStep s pfx count maxDigits oracle rnd st (batchStart + (i : Int))) st
      if batchIndex < totalBatches - 1 then groupCooldown s st2 batchIndex else st2)
    { success := 0, failed := 0, groups := [], trace := [] }

/-- Result and observation trace of a whole run; a run rejected before the
loop has an empty trace (nothing was attempted). -/
structure GroupOutcome where
  result : Except String GroupResults
  trace : List GEvent

/-- `createMultipleGroups` from `src/group-creator.js` (lines 65-213).
`ready` models `client && client.info`; the readiness check (line 85) comes
before `validateParticipants` (line 94), and both come before any batch. -/
def createMultipleGroups (ready : Bool) (pfx : List Char) (count : Nat)
    (participants : List (List Char)) (options : GroupOptions)
    (oracle : Int → Except String String) (rnd : Nat → ℚ) : GroupOutcome :=
  let s := mkSettings options
  if !ready then
    { result := .error "WhatsApp client is not ready. Please try again.", trace := [] }
  else
    match validateParticipants participants with
    | .error e => { result := .error e, trace := [] }
    | .ok _ =>
      let endNumber := s.startingNumber + (count : Int) - 1
      let maxDigits := (intDecimal endNumber).length
      let final := groupLoop s pfx count maxDigits oracle rnd
      { result := .ok { success := final.success, failed := final.failed, groups := final.groups }
        trace := final.trace }

/-! ## Message-sending path (`src/message-sender.js`) -/

/-- Observable events of a `sendBulkMessages` run. -/
inductive MEvent where
  | waitEv (ms : Int)
  | sendMsg (recipient : List Char) (payload : List Char)
  | progressEv (current : Int) (total : Nat) (success failed : Nat)
  | cooldownEv (seconds : Int) (nextBatch : Int)
  | cooldownWaitEv (ms : Int)
deriving Repr, DecidableEq

/-- One entry of `results.details`. -/
structure MsgRecord where
  recipient : List Char
  success : Bool
  messageId : Option String
  error : Option String
deriving Repr, DecidableEq

/-- The `results` object returned by `sendBulkMessages`. -/
structure MsgResults where
  success : Nat
  failed : Nat
  details : List MsgRecord
deriving Repr, DecidableEq

/-- Mutable state threaded through the `sendBulkMessages` loops. -/
structure MsgState where
  success : Nat
  failed : Nat
  details : List MsgRecord
  trace : List MEvent

/-- The record pushed onto `results.details` for unit `j` (lines 149-163). -/
def mkMsgRecord (recipients : List (List Char)) (oracle : Nat → Except String String)
    (j : Nat) : MsgRecord :=
  match oracle j with
  | .ok mid => { recipient := recipients.getD j [], success := true, messageId := some mid, error := none }
  | .error e => { recipient := recipients.getD j [], success := false, messageId := none, error := some e }

/-- The body of the per-recipient loop of `sendBulkMessages` (lines 131-179):
randomized pacing wait (except before the first message), content variation,
the `client.sendMessage` attempt with its recording, and the progress
callback.  Unit `j` draws `rnd (3*j)` for the wait, `rnd (3*j+1)` for the
variation choice and `rnd (3*j+2)` for the invisible-marker offset (distinct
fresh positions of the random stream per call site). -/
def msgStep (message : List Char) (total : Nat) (delaySeconds : Int)
    (oracle : Nat → Except String String) (rnd : Nat → ℚ)
    (st : MsgState) (recipient : List Char) (totalProcessed : Nat) : MsgState :=
  let st :=
    if totalProcessed > 0 then
      { st with trace := st.trace ++ [MEvent.waitEv (getRandomizedDelay delaySeconds (rnd (3 * totalProcessed)))] }
    else st
  let modifiedMessage := addMessageVariation message (rnd (3 * totalProcessed + 1)) (rnd (3 * totalProcessed + 2))
  let st := { st with trace := st.trace ++ [MEvent.sendMsg recipient modifiedMessage] }
  let st :=
    match oracle totalProcessed with
    | .ok mid =>
      { st with success := st.success + 1
                details := st.details ++ [({ recipient := recipient, success := true
                                             messageId := some mid, error := none } : MsgRecord)] }
    | .error e =>
      { st with failed := st.failed + 1
                details := st.details ++ [({ recipient := recipient, success := false
                                             messageId := none, error := some e } : MsgRecord)] }
  { st with trace := st.trace ++ [MEvent.progressEv (totalProcessed + 1) total st.success st.failed] }

/-- The inter-batch cooldown of `sendBulkMessages` (lines 183-202). -/
def msgCooldown (st : MsgState) (batchIndex : Nat) : MsgState :=
  let st := { st with trace := st.trace ++ [MEvent.cooldownEv (ANTI_BAN_BATCH_COOLDOWN / 1000) ((batchIndex : Int) + 2)] }
  { st with trace := st.trace ++ [MEvent.cooldownWaitEv ANTI_BAN_BATCH_COOLDOWN] }

/-- The batch loop of `sendBulkMessages` (lines 119-203): batches are the
slices `recipients.slice(batchStart, batchEnd)` of size `ANTI_BAN.BATCH_SIZE`. -/
def msgLoop (message : List Char) (recipients : List (List Char)) (delaySeconds : Int)
    (oracle : Nat → Except String String) (rnd : Nat → ℚ) : MsgState :=
  let totalBatches := (jsCeilDiv (recipients.length : Int) (ANTI_BAN_BATCH_SIZE : Int)).toNat
  (List.range totalBatches).foldl
    (fun st batchIndex =>
      let batchStart := batchIndex * ANTI_BAN_BATCH_SIZE
      let batchEnd := min (batchStart + ANTI_BAN_BATCH_SIZE) recipients.length
      let batchRecipients := (recipients.drop batchStart).take (batchEnd - batchStart)
      let st2 := (List.range batchRecipients.length).foldl
        (fun st i =>
          msgStep message recipients.length delaySeconds oracle rnd st
            (batchRecipients.getD i []) (batchStart + i)) st
      if batchIndex < totalBatches - 1 then msgCooldown st2 batchIndex else st2)
    { success := 0, failed := 0, details := [], trace := [] }

/-- Result and observation trace of a whole `sendBulkMessages` run. -/
structure MsgOutcome where
  result : Except String MsgResults
  trace : List MEvent

/-- `sendBulkMessages` from `src/message-sender.js` (lines 101-207).
Note: the function performs no validation of `recipients` and no batch-size
or list-size checks; only client readiness is checked before the loop. -/
def sendBulkMessages (ready : Bool) (message : List Char)
    (recipients : List (List Char)) (delaySeconds : Int)
    (oracle : Nat → Except String String) (rnd : Nat → ℚ) : MsgOutcome :=
  if !ready then
    { result := .error "WhatsApp client is not ready. Please try again.", trace := [] }
  else
    let final := msgLoop message recipients delaySeconds oracle rnd
    { result := .ok { success := final.success, failed := final.failed, details := final.details }
      trace := final.trace }

/-! ## Generic batching combinator and trace projections -/

/-- `concatMap F l`: concatenation of `F a` over `a ∈ l`, in order. -/
def concatMap (F : α → List β) : List α → List β
  | [] => []
  | a :: l => F a ++ concatMap F l

/-- The common shape of both batch loops: `T` batches of size `b` over `N`
units, the unit at absolute index `batchStart + i`, and a cooldown after
every batch but the last. -/
def batchBody {σ : Type} (N b T : Nat) (step : σ → Nat → σ) (cool : σ → Nat → σ)
    (st : σ) (k : Nat) : σ :=
  let batchStart := k * b
  let batchEnd := min (batchStart + b) N
  let st2 := (List.range (batchEnd - batchStart)).foldl
    (fun st i => step st (batchStart + i)) st
  if k < T - 1 then cool st2 k else st2

/-- Iterated batch processing. -/
def batchedFold {σ : Type} (N b T : Nat) (step : σ → Nat → σ) (cool : σ → Nat → σ)
    (init : σ) : σ :=
  (List.range T).foldl (batchBody N b T step cool) init

/-- Indices of the `createGroup` calls recorded in a group trace, in order. -/
def gCallIdxs (tr : List GEvent) : List Int :=
  tr.filterMap fun e =>
    match e with
    | .callCreate i _ => some i
    | _ => none

/-- Per-unit pacing waits recorded in a group trace, in order (inter-batch
cooldown waits are a distinct event and are not included). -/
def gUnitWaits (tr : List GEvent) : List Int :=
  tr.filterMap fun e =>
    match e with
    | .waitEv w => some w
    | _ => none

/-- The inter-batch cooldown progress events of a group trace. -/
def gCooldownEvs (tr : List GEvent) : List Unit :=
  tr.filterMap fun e =>
    match e with
    | .cooldownEv _ _ => some ()
    | _ => none

/-- Number of inter-batch cooldown progress events in a group trace. -/
def gCooldownCount (tr : List GEvent) : Nat := (gCooldownEvs tr).length

/-- The pacing wait inserted before group unit `idx` (`idx > 0`): the fixed
user delay when one is configured, the adaptive rate limit otherwise
(`src/group-creator.js` lines 128-140). -/
def gWaitAt (s : GroupSettings) (rnd : Nat → ℚ) (idx : Int) : Int :=
  if s.delaySeconds > 0 then s.delaySeconds * 1000
  else getRateLimit (idx + 1) (rnd idx.toNat)

/-- Recipients of the `sendMessage` calls recorded in a message trace,
in order. -/
def mSentRecipients (tr : List MEvent) : List (List Char) :=
  tr.filterMap fun e =>
    match e with
    | .sendMsg r _ => some r
    | _ => none

/-- Per-unit pacing waits recorded in a message trace, in order. -/
def mUnitWaits (tr : List MEvent) : List Int :=
  tr.filterMap fun e =>
    match e with
    | .waitEv w => some w
    | _ => none

/-- The inter-batch cooldown progress events of a message trace. -/
def mCooldownEvs (tr : List MEvent) : List Unit :=
  tr.filterMap fun e =>
    match e with
    | .cooldownEv _ _ => some ()
    | _ => none

/-- Number of inter-batch cooldown progress events in a message trace. -/
def mCooldownCount (tr : List MEvent) : Nat := (mCooldownEvs tr).length

/-- The pacing wait inserted before message unit `j` (`j > 0`):
`getRandomizedDelay` on the configured per-message delay
(`src/message-sender.js` lines 136-141). -/
def mWaitAt (delaySeconds : Int) (rnd : Nat → ℚ) (j : Nat) : Int :=
  getRandomizedDelay delaySeconds (rnd (3 * j))

/-! ## Generic lemmas about `concatMap`, folds and the batch shape -/

theorem concatMap_append (F : α → List β) (l1 l2 : List α) :
    concatMap F (l1 ++ l2) = concatMap F l1 ++ concatMap F l2 := by
  induction l1 with
  | nil => simp [concatMap]
  | cons a l ih => simp [concatMap, ih]

theorem concatMap_map (G : β → List γ) (f : α → β) (l : List α) :
    concatMap G (l.map f) = concatMap (fun a => G (f a)) l := by
  induction l with
  | nil => simp [concatMap]
  | cons a l ih => simp [concatMap, ih]

theorem concatMap_concatMap (G : β → List γ) (F : α → List β) (l : List α) :
    concatMap G (concatMap F l) = concatMap (fun a => concatMap G (F a)) l := by
  induction l with
  | nil => simp [concatMap]
  | cons a l ih => simp [concatMap, concatMap_append, ih]

theorem concatMap_singleton (g : α → β) (l : List α) :
    concatMap (fun a => [g a]) l = l.map g := by
  induction l with
  | nil => simp [concatMap]
  | cons a l ih => simp [concatMap, ih]

theorem concatMap_congr {F G : α → List β} (l : List α)
    (h : ∀ a ∈ l, F a = G a) : concatMap F l = concatMap G l := by
  induction l with
  | nil => simp [concatMap]
  | cons a l ih =>
    simp only [concatMap]
    rw [h a (by simp), ih (fun a ha => h a (by simp [ha]))]

theorem concatMap_ite_singleton (x : β) (M : Nat) :
    ∀ T : Nat, concatMap (fun k => if k < M then [x] else []) (List.range T)
      = List.replicate (min T M) x := by
  intro T
  induction T with
  | zero => simp [concatMap]
  | succ T ih =>
    rw [List.range_succ, concatMap_append, ih]
    by_cases h : T < M
    · have h1 : min T M = T := by omega
      have h2 : min (T + 1) M = T + 1 := by omega
      simp [concatMap, h, h1, h2, List.replicate_succ' ]
    · have h1 : min T M = M := by omega
      have h2 : min (T + 1) M = M := by omega
      simp [concatMap, h, h1, h2]

theorem foldl_out {σ β α : Type} (out : σ → List β) (f : σ → α → σ) (G : α → List β)
    (h : ∀ st a, out (f st a) = out st ++ G a) (l : List α) :
    ∀ init : σ, out (l.foldl f init) = out init ++ concatMap G l := by
  induction l with
  | nil => intro init; simp [concatMap]
  | cons a l ih =>
    intro init
    simp only [List.foldl_cons, concatMap]
    rw [ih (f init a), h, List.append_assoc]

theorem foldl_congr_mem {σ α : Type} (f g : σ → α → σ) (l : List α)
    (h : ∀ st, ∀ a ∈ l, f st a = g st a) : ∀ init : σ, l.foldl f init = l.foldl g init := by
  induction l with
  | nil => intro init; rfl
  | cons a l ih =>
    intro init
    simp only [List.foldl_cons]
    rw [h init a (by simp)]
    exact ih (fun st a ha => h st a (by simp [ha])) _

theorem batchedFold_out {σ β : Type} (N b T : Nat) (step cool : σ → Nat → σ)
    (out : σ → List β) (G : Nat → List β) (Gc : Nat → List β)
    (hstep : ∀ st i, out (step st i) = out st ++ G i)
    (hcool : ∀ st k, out (cool st k) = out st ++ Gc k) (init : σ) :
    out (batchedFold N b T step cool init)
      = out init ++ concatMap (fun k =>
          concatMap (fun i => G (k * b + i)) (List.range (min (k * b + b) N - k * b))
          ++ if k < T - 1 then Gc k else []) (List.range T) := by
  unfold batchedFold
  refine foldl_out out _ _ ?_ (List.range T) init
  intro st k
  simp only [batchBody]
  by_cases h : k < T - 1
  · simp only [h, if_true]
    rw [hcool, foldl_out out _ (fun i => G (k * b + i)) (fun st i => hstep st (k * b + i)),
      List.append_assoc]
  · simp only [h, if_false, List.append_nil]
    rw [foldl_out out _ (fun i => G (k * b + i)) (fun st i => hstep st (k * b + i))]

theorem batchIndices_flatten (N b : Nat) (hb : 0 < b) :
    concatMap (fun k => (List.range (min (k * b + b) N - k * b)).map (fun i => k * b + i))
      (List.range ((N + b - 1) / b)) = List.range N := by
  have hdm := Nat.div_add_mod (N + b - 1) b
  rw [Nat.mul_comm] at hdm
  have hmod : (N + b - 1) % b < b := Nat.mod_lt _ hb
  have key : ∀ t, t ≤ (N + b - 1) / b →
      concatMap (fun k => (List.range (min (k * b + b) N - k * b)).map (fun i => k * b + i))
        (List.range t) = List.range (min (t * b) N) := by
    intro t
    induction t with
    | zero => simp [concatMap]
    | succ t ih =>
      intro ht
      rw [List.range_succ, concatMap_append, ih (by omega)]
      have hmul : (t + 1) * b ≤ ((N + b - 1) / b) * b :=
        Nat.mul_le_mul_right b ht
      have hdiv : ((N + b - 1) / b) * b ≤ N + b - 1 := Nat.div_mul_le_self _ _
      have hsm : (t + 1) * b = t * b + b := by ring
      have htbN : t * b < N := by omega
      have hle : t * b ≤ min (t * b + b) N := by omega
      have hmin : min (t * b) N = t * b := by omega
      have hsplit : min ((t + 1) * b) N = t * b + (min (t * b + b) N - t * b) := by omega
      rw [hmin, hsplit, List.range_add]
      simp [concatMap]
  have hN : N ≤ ((N + b - 1) / b) * b := by omega
  have := key ((N + b - 1) / b) le_rfl
  rw [this]
  congr 1
  omega

theorem jsCeilDiv_eq_natCeil (N b : Nat) (hb : 0 < b) :
    jsCeilDiv (N : Int) (b : Int) = (((N + b - 1) / b : Nat) : Int) := by
  unfold jsCeilDiv
  rw [Int.ceil_eq_iff]
  set M := (N + b - 1) / b with hM
  have hdm : b * M + (N + b - 1) % b = N + b - 1 := hM ▸ Nat.div_add_mod _ _
  have hmod : (N + b - 1) % b < b := Nat.mod_lt _ hb
  have h1 : N ≤ b * M := by omega
  have h2 : b * M + 1 ≤ N + b := by omega
  have hbq : (0 : ℚ) < (b : ℚ) := by exact_mod_cast hb
  have h1q : (N : ℚ) ≤ (b : ℚ) * (M : ℚ) := by exact_mod_cast h1
  have h2q : (b : ℚ) * (M : ℚ) + 1 ≤ (N : ℚ) + (b : ℚ) := by exact_mod_cast h2
  constructor
  · push_cast
    rw [lt_div_iff₀ hbq]
    nlinarith
  · push_cast
    rw [div_le_iff₀ hbq]
    nlinarith

theorem concatMap_nil (l : List α) : concatMap (fun _ => ([] : List β)) l = [] := by
  induction l with
  | nil => rfl
  | cons a l ih => simp [concatMap, ih]

theorem batchedFold_out_units {σ β : Type} (N b T : Nat) (hb : 0 < b)
    (hT : T = (N + b - 1) / b) (step cool : σ → Nat → σ)
    (out : σ → List β) (G : Nat → List β)
    (hstep : ∀ st i, out (step st i) = out st ++ G i)
    (hcool : ∀ st k, out (cool st k) = out st) (init : σ) :
    out (batchedFold N b T step cool init) = out init ++ concatMap G (List.range N) := by
  rw [batchedFold_out N b T step cool out G (fun _ => [])
    hstep (fun st k => by rw [hcool, List.append_nil]) init]
  congr 1
  have h1 : ∀ k ∈ List.range T,
      (concatMap (fun i => G (k * b + i)) (List.range (min (k * b + b) N - k * b))
        ++ if k < T - 1 then ([] : List β) else [])
      = concatMap G ((List.range (min (k * b + b) N - k * b)).map (fun i => k * b + i)) := by
    intro k _
    rw [concatMap_map]
    split <;> simp
  rw [concatMap_congr _ h1, ← concatMap_concatMap, hT, batchIndices_flatten N b hb]

theorem batchedFold_out_cooldowns {σ β : Type} (N b T : Nat) (x : β)
    (step cool : σ → Nat → σ) (out : σ → List β)
    (hstep : ∀ st i, out (step st i) = out st)
    (hcool : ∀ st k, out (cool st k) = out st ++ [x]) (init : σ) :
    out (batchedFold N b T step cool init) = out init ++ List.replicate (min T (T - 1)) x := by
  rw [batchedFold_out N b T step cool out (fun _ => []) (fun _ => [x])
    (fun st i => by rw [hstep]; simp) hcool init]
  congr 1
  have h1 : ∀ k ∈ List.range T,
      (concatMap (fun _ => ([] : List β)) (List.range (min (k * b + b) N - k * b))
        ++ if k < T - 1 then [x] else [])
      = (if k < T - 1 then [x] else []) := by
    intro k _
    rw [concatMap_nil, List.nil_append]
  rw [concatMap_congr _ h1, concatMap_ite_singleton]

/-! ## The group loop as a canonical batched fold -/

theorem groupLoop_eq_batchedFold (s : GroupSettings) (pfx : List Char) (count maxD : Nat)
    (oracle : Int → Except String String) (rnd : Nat → ℚ) (hb : 0 < s.batchSize) :
    groupLoop s pfx count maxD oracle rnd
      = batchedFold count s.batchSize.toNat
          ((count + s.batchSize.toNat - 1) / s.batchSize.toNat)
          (fun st i => groupStep s pfx count maxD oracle rnd st (i : Int))
          (fun st k => groupCooldown s st (k : Int))
          { success := 0, failed := 0, groups := [], trace := [] } := by
  set b := s.batchSize.toNat with hbdef
  have hB : s.batchSize = (b : Int) := by omega
  have hbpos : 0 < b := by omega
  have hTB : jsCeilDiv (count : Int) s.batchSize = (((count + b - 1) / b : Nat) : Int) := by
    rw [hB]; exact jsCeilDiv_eq_natCeil count b hbpos
  have hT2 : (jsCeilDiv (count : Int) s.batchSize).toNat = (count + b - 1) / b := by
    rw [hTB]; exact Int.toNat_natCast _
  simp only [groupLoop, batchedFold]
  rw [hT2]
  refine foldl_congr_mem _ _ _ ?_ _
  intro st k _
  simp only [batchBody]
  have hkb : (k : Int) * s.batchSize = ((k * b : Nat) : Int) := by rw [hB]; push_cast; ring
  have hsz : (min ((k : Int) * s.batchSize + s.batchSize) ((count : Nat) : Int)
      - (k : Int) * s.batchSize).toNat = min (k * b + b) count - k * b := by
    rw [hkb, hB]; omega
  have hcond : ((k : Int) < jsCeilDiv (count : Int) s.batchSize - 1)
      ↔ (k < (count + b - 1) / b - 1) := by
    rw [hTB]; omega
  have hfun : (fun (st : GroupState) (i : Nat) =>
        groupStep s pfx count maxD oracle rnd st ((k : Int) * s.batchSize + (i : Int)))
      = (fun (st : GroupState) (i : Nat) =>
        groupStep s pfx count maxD oracle rnd st (((k * b + i : Nat)) : Int)) := by
    funext st i
    rw [hkb]
    norm_cast
  rw [hsz, hfun]
  simp only [hcond]

/-! ## Per-step and per-cooldown effects on the group state -/

theorem groupStep_groups (s : GroupSettings) (pfx : List Char) (count maxD : Nat)
    (oracle : Int → Except String String) (rnd : Nat → ℚ) (st : GroupState) (idx : Int) :
    (groupStep s pfx count maxD oracle rnd st idx).groups
      = st.groups ++ [mkGroupRecord s pfx maxD oracle idx] := by
  simp only [groupStep, mkGroupRecord]
  cases h : oracle idx <;> simp [h, apply_ite]

theorem groupStep_done (s : GroupSettings) (pfx : List Char) (count maxD : Nat)
    (oracle : Int → Except String String) (rnd : Nat → ℚ) (st : GroupState) (idx : Int) :
    (groupStep s pfx count maxD oracle rnd st idx).success
      + (groupStep s pfx count maxD oracle rnd st idx).failed
      = st.success + st.failed + 1 := by
  simp only [groupStep]
  cases h : oracle idx <;> simp [h, apply_ite] <;> omega

theorem groupStep_callIdxs (s : GroupSettings) (pfx : List Char) (count maxD : Nat)
    (oracle : Int → Except String String) (rnd : Nat → ℚ) (st : GroupState) (idx : Int) :
    gCallIdxs (groupStep s pfx count maxD oracle rnd st idx).trace
      = gCallIdxs st.trace ++ [idx] := by
  simp only [groupStep, gCallIdxs]
  by_cases hidx : idx > 0 <;>
    cases h : oracle idx <;>
      simp [h, hidx, List.filterMap_append]

theorem groupStep_unitWaits (s : GroupSettings) (pfx : List Char) (count maxD : Nat)
    (oracle : Int → Except String String) (rnd : Nat → ℚ) (st : GroupState) (idx : Int) :
    gUnitWaits (groupStep s pfx count maxD oracle rnd st idx).trace
      = gUnitWaits st.trace ++ (if 0 < idx then [gWaitAt s rnd idx] else []) := by
  simp only [groupStep, gUnitWaits, gWaitAt]
  by_cases hidx : idx > 0 <;>
    cases h : oracle idx <;>
      simp [h, hidx, List.filterMap_append]

theorem groupStep_cooldownEvs (s : GroupSettings) (pfx : List Char) (count maxD : Nat)
    (oracle : Int → Except String String) (rnd : Nat → ℚ) (st : GroupState) (idx : Int) :
    gCooldownEvs (groupStep s pfx count maxD oracle rnd st idx).trace
      = gCooldownEvs st.trace := by
  simp only [groupStep, gCooldownEvs]
  by_cases hidx : idx > 0 <;>
    cases h : oracle idx <;>
      simp [h, hidx, List.filterMap_append]

theorem groupCooldown_groups (s : GroupSettings) (st : GroupState) (k : Int) :
    (groupCooldown s st k).groups = st.groups := by
  simp [groupCooldown]

theorem groupCooldown_done (s : GroupSettings) (st : GroupState) (k : Int) :
    (groupCooldown s st k).success + (groupCooldown s st k).failed
      = st.success + st.failed := by
  simp [groupCooldown]

theorem groupCooldown_callIdxs (s : GroupSettings) (st : GroupState) (k : Int) :
    gCallIdxs (groupCooldown s st k).trace = gCallIdxs st.trace := by
  simp [groupCooldown, gCallIdxs, List.filterMap_append]

theorem groupCooldown_unitWaits (s : GroupSettings) (st : GroupState) (k : Int) :
    gUnitWaits (groupCooldown s st k).trace = gUnitWaits st.trace := by
  simp [groupCooldown, gUnitWaits, List.filterMap_append]

theorem groupCooldown_cooldownEvs (s : GroupSettings) (st : GroupState) (k : Int) :
    gCooldownEvs (groupCooldown s st k).trace = gCooldownEvs st.trace ++ [()] := by
  simp [groupCooldown, gCooldownEvs, List.filterMap_append]

/-! ## Master lemmas for the group loop -/

theorem groupLoop_groups (s : GroupSettings) (pfx : List Char) (count maxD : Nat)
    (oracle : Int → Except String String) (rnd : Nat → ℚ) (hb : 0 < s.batchSize) :
    (groupLoop s pfx count maxD oracle rnd).groups
      = (List.range count).map (fun i : Nat => mkGroupRecord s pfx maxD oracle (i : Int)) := by
  rw [groupLoop_eq_batchedFold s pfx count maxD oracle rnd hb]
  rw [batchedFold_out_units count s.batchSize.toNat _ (by omega) rfl _ _
    (fun st => st.groups) (fun i => [mkGroupRecord s pfx maxD oracle (i : Int)])
    (fun st i => groupStep_groups s pfx count maxD oracle rnd st (i : Int))
    (fun st k => groupCooldown_groups s st (k : Int)) _]
  rw [concatMap_singleton]
  rfl

theorem groupLoop_done (s : GroupSettings) (pfx : List Char) (count maxD : Nat)
    (oracle : Int → Except String String) (rnd : Nat → ℚ) (hb : 0 < s.batchSize) :
    (groupLoop s pfx count maxD oracle rnd).success
      + (groupLoop s pfx count maxD oracle rnd).failed = count := by
  have key := batchedFold_out_units count s.batchSize.toNat
    ((count + s.batchSize.toNat - 1) / s.batchSize.toNat) (by omega) rfl
    (fun st i => groupStep s pfx count maxD oracle rnd st (i : Int))
    (fun st k => groupCooldown s st (k : Int))
    (fun st => List.replicate (st.success + st.failed) ()) (fun _ => [()])
    (fun st i => by
      dsimp only
      rw [groupStep_done s pfx count maxD oracle rnd st (i : Int)]
      exact List.replicate_succ' _ _)
    (fun st k => by dsimp only; rw [groupCooldown_done s st (k : Int)])
    { success := 0, failed := 0, groups := [], trace := [] }
  rw [← groupLoop_eq_batchedFold s pfx count maxD oracle rnd hb] at key
  have hlen := congrArg List.length key
  simpa [concatMap_singleton] using hlen

theorem groupLoop_callIdxs (s : GroupSettings) (pfx : List Char) (count maxD : Nat)
    (oracle : Int → Except String String) (rnd : Nat → ℚ) (hb : 0 < s.batchSize) :
    gCallIdxs (groupLoop s pfx count maxD oracle rnd).trace
      = (List.range count).map (fun i : Nat => (i : Int)) := by
  rw [groupLoop_eq_batchedFold s pfx count maxD oracle rnd hb]
  rw [batchedFold_out_units count s.batchSize.toNat _ (by omega) rfl _ _
    (fun st => gCallIdxs st.trace) (fun i => [((i : Nat) : Int)])
    (fun st i => groupStep_callIdxs s pfx count maxD oracle rnd st (i : Int))
    (fun st k => groupCooldown_callIdxs s st (k : Int)) _]
  rw [concatMap_singleton]
  rfl

theorem groupLoop_unitWaits (s : GroupSettings) (pfx : List Char) (count maxD : Nat)
    (oracle : Int → Except String String) (rnd : Nat → ℚ) (hb : 0 < s.batchSize) :
    gUnitWaits (groupLoop s pfx count maxD oracle rnd).trace
      = concatMap (fun i : Nat => if 0 < (i : Int) then [gWaitAt s rnd (i : Int)] else [])
          (List.range count) := by
  rw [groupLoop_eq_batchedFold s pfx count maxD oracle rnd hb]
  rw [batchedFold_out_units count s.batchSize.toNat _ (by omega) rfl _ _
    (fun st => gUnitWaits st.trace)
    (fun i : Nat => if 0 < ((i : Nat) : Int) then [gWaitAt s rnd (i : Int)] else [])
    (fun st i => groupStep_unitWaits s pfx count maxD oracle rnd st (i : Int))
    (fun st k => groupCooldown_unitWaits s st (k : Int)) _]
  rfl

theorem groupLoop_cooldownCount (s : GroupSettings) (pfx : List Char) (count maxD : Nat)
    (oracle : Int → Except String String) (rnd : Nat → ℚ) (hb : 0 < s.batchSize) :
    gCooldownCount (groupLoop s pfx count maxD oracle rnd).trace
      = (count + s.batchSize.toNat - 1) / s.batchSize.toNat - 1 := by
  rw [groupLoop_eq_batchedFold s pfx count maxD oracle rnd hb]
  unfold gCooldownCount
  rw [batchedFold_out_cooldowns count s.batchSize.toNat
    ((count + s.batchSize.toNat - 1) / s.batchSize.toNat) () _ _
    (fun st => gCooldownEvs st.trace)
    (fun st i => groupStep_cooldownEvs s pfx count maxD oracle rnd st (i : Int))
    (fun st k => groupCooldown_cooldownEvs s st (k : Int)) _]
  have : gCooldownEvs (GroupState.trace { success := 0, failed := 0, groups := [], trace := [] }) = [] := rfl
  rw [this, List.nil_append, List.length_replicate]
  exact min_eq_right (Nat.sub_le _ _)

/-- Unfolding of a `createMultipleGroups` run that passes the readiness check
and participant validation. -/
theorem createMultipleGroups_run (pfx : List Char) (count : Nat)
    (participants : List (List Char)) (opts : GroupOptions)
    (oracle : Int → Except String String) (rnd : Nat → ℚ)
    (hvalid : validateParticipants participants = .ok ()) :
    createMultipleGroups true pfx count participants opts oracle rnd
      = { result := .ok
            { success := (groupLoop (mkSettings opts) pfx count
                ((intDecimal ((mkSettings opts).startingNumber + (count : Int) - 1)).length)
                oracle rnd).success
              failed := (groupLoop (mkSettings opts) pfx count
                ((intDecimal ((mkSettings opts).startingNumber + (count : Int) - 1)).length)
                oracle rnd).failed
              groups := (groupLoop (mkSettings opts) pfx count
                ((intDecimal ((mkSettings opts).startingNumber + (count : Int) - 1)).length)
                oracle rnd).groups }
          trace := (groupLoop (mkSettings opts) pfx count
            ((intDecimal ((mkSettings opts).startingNumber + (count : Int) - 1)).length)
            oracle rnd).trace } := by
  simp [createMultipleGroups, hvalid]

/-! ## The message loop as a canonical batched fold -/

theorem msgLoop_eq_batchedFold (message : List Char) (recipients : List (List Char))
    (delaySeconds : Int) (oracle : Nat → Except String String) (rnd : Nat → ℚ) :
    msgLoop message recipients delaySeconds oracle rnd
      = batchedFold recipients.length ANTI_BAN_BATCH_SIZE
          ((recipients.length + ANTI_BAN_BATCH_SIZE - 1) / ANTI_BAN_BATCH_SIZE)
          (fun st j => msgStep message recipients.length delaySeconds oracle rnd st
            (recipients.getD j []) j)
          (fun st k => msgCooldown st k)
          { success := 0, failed := 0, details := [], trace := [] } := by
  have hT2 : (jsCeilDiv (recipients.length : Int) ((ANTI_BAN_BATCH_SIZE : Nat) : Int)).toNat
      = (recipients.length + ANTI_BAN_BATCH_SIZE - 1) / ANTI_BAN_BATCH_SIZE := by
    rw [jsCeilDiv_eq_natCeil _ _ (by norm_num [ANTI_BAN_BATCH_SIZE])]
    exact Int.toNat_natCast _
  simp only [msgLoop, batchedFold]
  rw [hT2]
  refine foldl_congr_mem _ _ _ ?_ _
  intro st k _
  simp only [batchBody]
  have hlen : ((recipients.drop (k * ANTI_BAN_BATCH_SIZE)).take
      (min (k * ANTI_BAN_BATCH_SIZE + ANTI_BAN_BATCH_SIZE) recipients.length
        - k * ANTI_BAN_BATCH_SIZE)).length
      = min (k * ANTI_BAN_BATCH_SIZE + ANTI_BAN_BATCH_SIZE) recipients.length
        - k * ANTI_BAN_BATCH_SIZE := by
    rw [List.length_take, List.length_drop]
    simp only [ANTI_BAN_BATCH_SIZE]
    omega
  rw [hlen]
  have hfold : (List.range (min (k * ANTI_BAN_BATCH_SIZE + ANTI_BAN_BATCH_SIZE) recipients.length
        - k * ANTI_BAN_BATCH_SIZE)).foldl
      (fun st i => msgStep message recipients.length delaySeconds oracle rnd st
        (((recipients.drop (k * ANTI_BAN_BATCH_SIZE)).take
          (min (k * ANTI_BAN_BATCH_SIZE + ANTI_BAN_BATCH_SIZE) recipients.length
            - k * ANTI_BAN_BATCH_SIZE)).getD i [])
        (k * ANTI_BAN_BATCH_SIZE + i)) st
      = (List.range (min (k * ANTI_BAN_BATCH_SIZE + ANTI_BAN_BATCH_SIZE) recipients.length
        - k * ANTI_BAN_BATCH_SIZE)).foldl
      (fun st i => msgStep message recipients.length delaySeconds oracle rnd st
        (recipients.getD (k * ANTI_BAN_BATCH_SIZE + i) [])
        (k * ANTI_BAN_BATCH_SIZE + i)) st := by
    refine foldl_congr_mem _ _ _ ?_ _
    intro st2 i hi
    have hi' : i < min (k * ANTI_BAN_BATCH_SIZE + ANTI_BAN_BATCH_SIZE) recipients.length
        - k * ANTI_BAN_BATCH_SIZE := List.mem_range.mp hi
    have hrec : ((recipients.drop (k * ANTI_BAN_BATCH_SIZE)).take
        (min (k * ANTI_BAN_BATCH_SIZE + ANTI_BAN_BATCH_SIZE) recipients.length
          - k * ANTI_BAN_BATCH_SIZE)).getD i []
        = recipients.getD (k * ANTI_BAN_BATCH_SIZE + i) [] := by
      rw [List.getD_eq_getElem?_getD, List.getD_eq_getElem?_getD, List.getElem?_take,
        if_pos hi', List.getElem?_drop]
    rw [hrec]
  rw [hfold]

/-! ## Per-step and per-cooldown effects on the message state -/

theorem msgStep_details (message : List Char) (total : Nat) (delaySeconds : Int)
    (oracle : Nat → Except String String) (rnd : Nat → ℚ)
    (recipients : List (List Char)) (st : MsgState) (j : Nat) :
    (msgStep message total delaySeconds oracle rnd st (recipients.getD j []) j).details
      = st.details ++ [mkMsgRecord recipients oracle j] := by
  simp only [msgStep, mkMsgRecord]
  cases h : oracle j <;> simp [h, apply_ite]

theorem msgStep_done (message : List Char) (total : Nat) (delaySeconds : Int)
    (oracle : Nat → Except String String) (rnd : Nat → ℚ)
    (rcp : List Char) (st : MsgState) (j : Nat) :
    (msgStep message total delaySeconds oracle rnd st rcp j).success
      + (msgStep message total delaySeconds oracle rnd st rcp j).failed
      = st.success + st.failed + 1 := by
  simp only [msgStep]
  cases h : oracle j <;> simp [h, apply_ite] <;> omega

theorem msgStep_sent (message : List Char) (total : Nat) (delaySeconds : Int)
    (oracle : Nat → Except String String) (rnd : Nat → ℚ)
    (rcp : List Char) (st : MsgState) (j : Nat) :
    mSentRecipients (msgStep message total delaySeconds oracle rnd st rcp j).trace
      = mSentRecipients st.trace ++ [rcp] := by
  simp only [msgStep, mSentRecipients]
  by_cases hj : j > 0 <;>
    cases h : oracle j <;>
      simp [h, hj, List.filterMap_append]

theorem msgStep_unitWaits (message : List Char) (total : Nat) (delaySeconds : Int)
    (oracle : Nat → Except String String) (rnd : Nat → ℚ)
    (rcp : List Char) (st : MsgState) (j : Nat) :
    mUnitWaits (msgStep message total delaySeconds oracle rnd st rcp j).trace
      = mUnitWaits st.trace ++ (if 0 < j then [mWaitAt delaySeconds rnd j] else []) := by
  simp only [msgStep, mUnitWaits, mWaitAt]
  by_cases hj : j > 0 <;>
    cases h : oracle j <;>
      simp [h, hj, List.filterMap_append]

theorem msgStep_cooldownEvs (message : List Char) (total : Nat) (delaySeconds : Int)
    (oracle : Nat → Except String String) (rnd : Nat → ℚ)
    (rcp : List Char) (st : MsgState) (j : Nat) :
    mCooldownEvs (msgStep message total delaySeconds oracle rnd st rcp j).trace
      = mCooldownEvs st.trace := by
  simp only [msgStep, mCooldownEvs]
  by_cases hj : j > 0 <;>
    cases h : oracle j <;>
      simp [h, hj, List.filterMap_append]

theorem msgCooldown_details (st : MsgState) (k : Nat) :
    (msgCooldown st k).details = st.details := by
  simp [msgCooldown]

theorem msgCooldown_done (st : MsgState) (k : Nat) :
    (msgCooldown st k).success + (msgCooldown st k).failed = st.success + st.failed := by
  simp [msgCooldown]

theorem msgCooldown_sent (st : MsgState) (k : Nat) :
    mSentRecipients (msgCooldown st k).trace = mSentRecipients st.trace := by
  simp [msgCooldown, mSentRecipients, List.filterMap_append]

theorem msgCooldown_unitWaits (st : MsgState) (k : Nat) :
    mUnitWaits (msgCooldown st k).trace = mUnitWaits st.trace := by
  simp [msgCooldown, mUnitWaits, List.filterMap_append]

theorem msgCooldown_cooldownEvs (st : MsgState) (k : Nat) :
    mCooldownEvs (msgCooldown st k).trace = mCooldownEvs st.trace ++ [()] := by
  simp [msgCooldown, mCooldownEvs, List.filterMap_append]

/-! ## Master lemmas for the message loop -/

theorem map_getD_range (l : List α) (d : α) :
    (List.range l.length).map (fun j => l.getD j d) = l := by
  induction l with
  | nil => rfl
  | cons a t ih =>
    rw [List.length_cons, List.range_succ_eq_map, List.map_cons, List.map_map]
    simp only [Function.comp_def, Nat.succ_eq_add_one, List.getD_cons_zero, List.getD_cons_succ]
    rw [ih]

theorem msgLoop_details (message : List Char) (recipients : List (List Char))
    (delaySeconds : Int) (oracle : Nat → Except String String) (rnd : Nat → ℚ) :
    (msgLoop message recipients delaySeconds oracle rnd).details
      = (List.range recipients.length).map (mkMsgRecord recipients oracle) := by
  rw [msgLoop_eq_batchedFold message recipients delaySeconds oracle rnd]
  rw [batchedFold_out_units recipients.length ANTI_BAN_BATCH_SIZE _
    (by norm_num [ANTI_BAN_BATCH_SIZE]) rfl _ _
    (fun st => st.details) (fun j => [mkMsgRecord recipients oracle j])
    (fun st j => msgStep_details message recipients.length delaySeconds oracle rnd recipients st j)
    (fun st k => msgCooldown_details st k) _]
  rw [concatMap_singleton]
  rfl

theorem msgLoop_done (message : List Char) (recipients : List (List Char))
    (delaySeconds : Int) (oracle : Nat → Except String String) (rnd : Nat → ℚ) :
    (msgLoop message recipients delaySeconds oracle rnd).success
      + (msgLoop message recipients delaySeconds oracle rnd).failed
      = recipients.length := by
  have key := batchedFold_out_units recipients.length ANTI_BAN_BATCH_SIZE
    ((recipients.length + ANTI_BAN_BATCH_SIZE - 1) / ANTI_BAN_BATCH_SIZE)
    (by norm_num [ANTI_BAN_BATCH_SIZE]) rfl
    (fun st j => msgStep message recipients.length delaySeconds oracle rnd st
      (recipients.getD j []) j)
    (fun st k => msgCooldown st k)
    (fun st => List.replicate (st.success + st.failed) ()) (fun _ => [()])
    (fun st j => by
      dsimp only
      rw [msgStep_done message recipients.length delaySeconds oracle rnd _ st j]
      exact List.replicate_succ' _ _)
    (fun st k => by dsimp only; rw [msgCooldown_done st k])
    { success := 0, failed := 0, details := [], trace := [] }
  rw [← msgLoop_eq_batchedFold message recipients delaySeconds oracle rnd] at key
  have hlen := congrArg List.length key
  simpa [concatMap_singleton] using hlen

theorem msgLoop_sent (message : List Char) (recipients : List (List Char))
    (delaySeconds : Int) (oracle : Nat → Except String String) (rnd : Nat → ℚ) :
    mSentRecipients (msgLoop message recipients delaySeconds oracle rnd).trace
      = recipients := by
  rw [msgLoop_eq_batchedFold message recipients delaySeconds oracle rnd]
  rw [batchedFold_out_units recipients.length ANTI_BAN_BATCH_SIZE _
    (by norm_num [ANTI_BAN_BATCH_SIZE]) rfl _ _
    (fun st => mSentRecipients st.trace) (fun j => [recipients.getD j []])
    (fun st j => msgStep_sent message recipients.length delaySeconds oracle rnd _ st j)
    (fun st k => msgCooldown_sent st k) _]
  rw [concatMap_singleton]
  have : mSentRecipients (MsgState.trace { success := 0, failed := 0, details := [], trace := [] }) = [] := rfl
  rw [this, List.nil_append, map_getD_range]

theorem msgLoop_unitWaits (message : List Char) (recipients : List (List Char))
    (delaySeconds : Int) (oracle : Nat → Except String String) (rnd : Nat → ℚ) :
    mUnitWaits (msgLoop message recipients delaySeconds oracle rnd).trace
      = concatMap (fun j : Nat => if 0 < j then [mWaitAt delaySeconds rnd j] else [])
          (List.range recipients.length) := by
  rw [msgLoop_eq_batchedFold message recipients delaySeconds oracle rnd]
  rw [batchedFold_out_units recipients.length ANTI_BAN_BATCH_SIZE _
    (by norm_num [ANTI_BAN_BATCH_SIZE]) rfl _ _
    (fun st => mUnitWaits st.trace)
    (fun j : Nat => if 0 < j then [mWaitAt delaySeconds rnd j] else [])
    (fun st j => msgStep_unitWaits message recipients.length delaySeconds oracle rnd _ st j)
    (fun st k => msgCooldown_unitWaits st k) _]
  rfl

theorem msgLoop_cooldownCount (message : List Char) (recipients : List (List Char))
    (delaySeconds : Int) (oracle : Nat → Except String String) (rnd : Nat → ℚ) :
    mCooldownCount (msgLoop message recipients delaySeconds oracle rnd).trace
      = (recipients.length + ANTI_BAN_BATCH_SIZE - 1) / ANTI_BAN_BATCH_SIZE - 1 := by
  rw [msgLoop_eq_batchedFold message recipients delaySeconds oracle rnd]
  unfold mCooldownCount
  rw [batchedFold_out_cooldowns recipients.length ANTI_BAN_BATCH_SIZE
    ((recipients.length + ANTI_BAN_BATCH_SIZE - 1) / ANTI_BAN_BATCH_SIZE) () _ _
    (fun st => mCooldownEvs st.trace)
    (fun st j => msgStep_cooldownEvs message recipients.length delaySeconds oracle rnd _ st j)
    (fun st k => msgCooldown_cooldownEvs st k) _]
  have : mCooldownEvs (MsgState.trace { success := 0, failed := 0, details := [], trace := [] }) = [] := rfl
  rw [this, List.nil_append, List.length_replicate]
  exact min_eq_right (Nat.sub_le _ _)

/-- Unfolding of a `sendBulkMessages` run on a ready client. -/
theorem sendBulkMessages_run (message : List Char) (recipients : List (List Char))
    (delaySeconds : Int) (oracle : Nat → Except String String) (rnd : Nat → ℚ) :
    sendBulkMessages true message recipients delaySeconds oracle rnd
      = { result := .ok
            { success := (msgLoop message recipients delaySeconds oracle rnd).success
              failed := (msgLoop message recipients delaySeconds oracle rnd).failed
              details := (msgLoop message recipients delaySeconds oracle rnd).details }
          trace := (msgLoop message recipients delaySeconds oracle rnd).trace } := by
  simp [sendBulkMessages]

/-! ## Decimal rendering: unfolding, length and monotonicity -/

theorem natDecimalAux_congr : ∀ f1 f2 n : Nat, n < f1 → n < f2 →
    natDecimalAux f1 n = natDecimalAux f2 n := by
  intro f1
  induction f1 with
  | zero => intro f2 n h1 _; omega
  | succ f1 ih =>
    intro f2 n h1 h2
    cases f2 with
    | zero => omega
    | succ f2 =>
      simp only [natDecimalAux]
      by_cases h : n < 10
      · simp [h]
      · simp only [h, if_false]
        have hdiv : n / 10 < n := Nat.div_lt_self (by omega) (by norm_num)
        rw [ih f2 (n / 10) (by omega) (by omega)]

theorem natDecimal_eq (n : Nat) :
    natDecimal n = if n < 10 then [digitChar n]
      else natDecimal (n / 10) ++ [digitChar (n % 10)] := by
  by_cases h : n < 10
  · simp [natDecimal, natDecimalAux, h]
  · have hdiv : n / 10 < n := Nat.div_lt_self (by omega) (by norm_num)
    rw [if_neg h]
    show natDecimalAux (n + 1) n = natDecimalAux (n / 10 + 1) (n / 10) ++ [digitChar (n % 10)]
    conv_lhs => rw [natDecimalAux]
    rw [if_neg h, natDecimalAux_congr n (n / 10 + 1) (n / 10) (by omega) (by omega)]

theorem natDecimal_length (n : Nat) : (natDecimal n).length = Nat.log 10 n + 1 := by
  induction n using Nat.strong_induction_on with
  | _ n ih =>
    rw [natDecimal_eq]
    by_cases h : n < 10
    · have hlog : Nat.log 10 n = 0 := Nat.log_eq_zero_iff.mpr (Or.inl h)
      simp [h, hlog]
    · push_neg at h
      have hdiv : n / 10 < n := Nat.div_lt_self (by omega) (by norm_num)
      simp only [h, Nat.not_lt.mpr h, if_false, List.length_append, List.length_cons,
        List.length_nil]
      rw [ih (n / 10) hdiv]
      have hlog : Nat.log 10 (n / 10) = Nat.log 10 n - 1 := Nat.log_div_base 10 n
      have hpos : 0 < Nat.log 10 n := Nat.log_pos (by norm_num) h
      omega

theorem natDecimal_length_mono {m n : Nat} (h : m ≤ n) :
    (natDecimal m).length ≤ (natDecimal n).length := by
  rw [natDecimal_length, natDecimal_length]
  have := Nat.log_mono_right (b := 10) h
  omega

theorem natDecimal_ne_nil (n : Nat) : natDecimal n ≠ [] := by
  rw [natDecimal_eq]
  by_cases h : n < 10 <;> simp [h]

theorem padStart_length (s : List Char) (w : Nat) (c : Char) :
    (padStart s w c).length = max w s.length := by
  simp [padStart]
  omega

/-! ## Pacing lemmas -/

theorem steppedBaseDelay_ge (c : Int) : 3000 ≤ steppedBaseDelay c := by
  simp only [steppedBaseDelay]
  split_ifs <;> norm_num

theorem steppedBaseDelay_mono {c c' : Int} (h : c ≤ c') :
    steppedBaseDelay c ≤ steppedBaseDelay c' := by
  simp only [steppedBaseDelay]
  split_ifs <;> norm_num <;> omega

theorem getRateLimit_nonneg (c : Int) (r : ℚ) (h0 : 0 ≤ r) : 0 ≤ getRateLimit c r := by
  unfold getRateLimit
  have hbase : (0 : ℚ) ≤ steppedBaseDelay c := le_trans (by norm_num) (steppedBaseDelay_ge c)
  have h1 : (0 : ℚ) ≤ steppedBaseDelay c * ((1 : ℚ) / 2 + r) :=
    mul_nonneg hbase (by linarith)
  exact Int.le_floor.mpr (by simpa using h1)

theorem getRateLimit_mono {c c' : Int} (r : ℚ) (h : c ≤ c') (h0 : 0 ≤ r) :
    getRateLimit c r ≤ getRateLimit c' r := by
  unfold getRateLimit
  exact Int.floor_le_floor (mul_le_mul_of_nonneg_right (steppedBaseDelay_mono h) (by linarith))

theorem getRandomizedDelay_offset (d : Int) (r : ℚ) (h0 : 0 ≤ r) (h1 : r < 1) :
    ∃ off : Int, 1000 ≤ off ∧ off ≤ 5999 ∧ getRandomizedDelay d r = d * 1000 + off := by
  refine ⟨Int.floor (r * ((MAX_RANDOM_DELAY : ℚ) - (MIN_RANDOM_DELAY : ℚ)) + (MIN_RANDOM_DELAY : ℚ)),
    ?_, ?_, rfl⟩
  · apply Int.le_floor.mpr
    simp only [MAX_RANDOM_DELAY, MIN_RANDOM_DELAY]
    push_cast
    nlinarith
  · have hlt : Int.floor (r * ((MAX_RANDOM_DELAY : ℚ) - (MIN_RANDOM_DELAY : ℚ))
        + (MIN_RANDOM_DELAY : ℚ)) < 6000 := by
      apply Int.floor_lt.mpr
      simp only [MAX_RANDOM_DELAY, MIN_RANDOM_DELAY]
      push_cast
      nlinarith
    omega

theorem getRandomizedDelay_nonneg (d : Int) (r : ℚ) (hd : 0 ≤ d) (h0 : 0 ≤ r) (h1 : r < 1) :
    0 ≤ getRandomizedDelay d r := by
  obtain ⟨off, ho1, _, he⟩ := getRandomizedDelay_offset d r h0 h1
  have hd1000 : 0 ≤ d * 1000 := mul_nonneg hd (by norm_num)
  omega

/-! ## Variation lemmas -/

theorem replaceFirst_length (t w : Char) (l : List Char) :
    (replaceFirst t w l).length = l.length := by
  induction l with
  | nil => rfl
  | cons c cs ih =>
    simp only [replaceFirst]
    split <;> simp [ih]

theorem variationIdx_lt {r1 : ℚ} (h0 : 0 ≤ r1) (h1 : r1 < 1) :
    (Int.floor (r1 * ((MESSAGE_VARIATIONS.length : Nat) : ℚ))).toNat < 10 := by
  have hlen : ((MESSAGE_VARIATIONS.length : Nat) : ℚ) = 10 := by norm_num [MESSAGE_VARIATIONS]
  rw [hlen]
  have hlt : Int.floor (r1 * (10 : ℚ)) < 10 := Int.floor_lt.mpr (by push_cast; nlinarith)
  omega

theorem invisiblePosition_le {len : Nat} (hlen : 1 ≤ len) (r : ℚ) (h0 : 0 ≤ r) (h1 : r < 1) :
    invisiblePosition len r ≤ len - 1 := by
  unfold invisiblePosition
  have hlq : (0 : ℚ) < (len : ℚ) := by exact_mod_cast hlen
  have hlt : Int.floor (r * (len : ℚ)) < (len : Int) := by
    apply Int.floor_lt.mpr
    have : r * (len : ℚ) < 1 * (len : ℚ) := by
      exact mul_lt_mul_of_pos_right h1 hlq
    simpa using this
  omega

theorem invisiblePosition_eq_iff {len p : Nat} (hlen : 1 ≤ len) (r : ℚ)
    (h0 : 0 ≤ r) (h1 : r < 1) :
    invisiblePosition len r = p ↔ ((p : ℚ) / (len : ℚ) ≤ r ∧ r < ((p : ℚ) + 1) / (len : ℚ)) := by
  unfold invisiblePosition
  have hlq : (0 : ℚ) < (len : ℚ) := by exact_mod_cast hlen
  rw [div_le_iff₀ hlq, lt_div_iff₀ hlq]
  have hnn : 0 ≤ Int.floor (r * (len : ℚ)) :=
    Int.floor_nonneg.mpr (mul_nonneg h0 (by positivity))
  constructor
  · intro h
    have hfl : Int.floor (r * (len : ℚ)) = (p : Int) := by omega
    have hiff := Int.floor_eq_iff.mp hfl
    exact ⟨by exact_mod_cast hiff.1, by exact_mod_cast hiff.2⟩
  · rintro ⟨ha, hb⟩
    have hfl : Int.floor (r * (len : ℚ)) = (p : Int) :=
      Int.floor_eq_iff.mpr ⟨by exact_mod_cast ha, by exact_mod_cast hb⟩
    omega

/-! ## Claim theorems -/

/-- Shared accounting lemma: both runs return `.ok`, the counters sum to the
unit count, and the outcome log is exactly the per-unit records in
submission order. -/
theorem runs_accounting
    (pfx : List Char) (count : Nat) (participants : List (List Char)) (opts : GroupOptions)
    (oracle : Int → Except String String) (rnd : Nat → ℚ)
    (message : List Char) (recipients : List (List Char)) (delaySeconds : Int)
    (moracle : Nat → Except String String) (mrnd : Nat → ℚ)
    (hvalid : validateParticipants participants = .ok ())
    (hb : 0 < (mkSettings opts).batchSize) :
    (∃ r : GroupResults,
      (createMultipleGroups true pfx count participants opts oracle rnd).result = .ok r
      ∧ r.success + r.failed = count
      ∧ r.groups.length = count
      ∧ ∀ i : Nat, i < count → r.groups[i]?
          = some (mkGroupRecord (mkSettings opts) pfx
              ((intDecimal ((mkSettings opts).startingNumber + (count : Int) - 1)).length)
              oracle (i : Int)))
    ∧ (∃ r : MsgResults,
      (sendBulkMessages true message recipients delaySeconds moracle mrnd).result = .ok r
      ∧ r.success + r.failed = recipients.length
      ∧ r.details.length = recipients.length
      ∧ ∀ j : Nat, j < recipients.length → r.details[j]? = some (mkMsgRecord recipients moracle j)) := by
  constructor
  · have hrun := createMultipleGroups_run pfx count participants opts oracle rnd hvalid
    refine ⟨_, by rw [hrun], ?_, ?_, ?_⟩
    · exact groupLoop_done (mkSettings opts) pfx count _ oracle rnd hb
    · rw [groupLoop_groups (mkSettings opts) pfx count _ oracle rnd hb]
      simp
    · intro i hi
      rw [groupLoop_groups (mkSettings opts) pfx count _ oracle rnd hb]
      simp [List.getElem?_range, hi]
  · have hrun := sendBulkMessages_run message recipients delaySeconds moracle mrnd
    refine ⟨_, by rw [hrun], ?_, ?_, ?_⟩
    · exact msgLoop_done message recipients delaySeconds moracle mrnd
    · rw [msgLoop_details message recipients delaySeconds moracle mrnd]
      simp
    · intro j hj
      rw [msgLoop_details message recipients delaySeconds moracle mrnd]
      simp [List.getElem?_range, hj]

/-- Claim C1: for every run of `createMultipleGroups` or `sendBulkMessages`
that passes its pre-loop checks (client ready, participants valid; the batch
size is a positive integer per the `BatchConfig` data model) and whose
progress callback never throws, the returned result satisfies
`successCount + failedCount = N`, and the ordered outcome log
(`results.groups` / `results.details`) has exactly `N` entries, the `i`-th
being exactly the record of unit `i`, in submission order. -/
theorem claim1_accounting
    (pfx : List Char) (count : Nat) (participants : List (List Char)) (opts : GroupOptions)
    (oracle : Int → Except String String) (rnd : Nat → ℚ)
    (message : List Char) (recipients : List (List Char)) (delaySeconds : Int)
    (moracle : Nat → Except String String) (mrnd : Nat → ℚ)
    (hvalid : validateParticipants participants = .ok ())
    (hb : 0 < (mkSettings opts).batchSize) :
    (∃ r : GroupResults,
      (createMultipleGroups true pfx count participants opts oracle rnd).result = .ok r
      ∧ r.success + r.failed = count
      ∧ r.groups.length = count
      ∧ ∀ i : Nat, i < count → r.groups[i]?
          = some (mkGroupRecord (mkSettings opts) pfx
              ((intDecimal ((mkSettings opts).startingNumber + (count : Int) - 1)).length)
              oracle (i : Int)))
    ∧ (∃ r : MsgResults,
      (sendBulkMessages true message recipients delaySeconds moracle mrnd).result = .ok r
      ∧ r.success + r.failed = recipients.length
      ∧ r.details.length = recipients.length
      ∧ ∀ j : Nat, j < recipients.length → r.details[j]? = some (mkMsgRecord recipients moracle j)) :=
  runs_accounting pfx count participants opts oracle rnd
    message recipients delaySeconds moracle mrnd hvalid hb

/-- Witness for C1 at a concrete input: three groups with one valid
participant under default options, and two recipients of which the second
send fails. -/
theorem claim1_accounting_witness :
    validateParticipants [['1', '@', 'c', '.', 'u', 's']] = .ok ()
    ∧ 0 < (mkSettings {}).batchSize
    ∧ ((∃ r : GroupResults,
      (createMultipleGroups true ['G'] 3 [['1', '@', 'c', '.', 'u', 's']] {}
          (fun _ => .ok "gid") (fun _ => 0)).result = .ok r
      ∧ r.success + r.failed = 3
      ∧ r.groups.length = 3
      ∧ ∀ i : Nat, i < 3 → r.groups[i]?
          = some (mkGroupRecord (mkSettings {}) ['G']
              ((intDecimal ((mkSettings {}).startingNumber + ((3 : Nat) : Int) - 1)).length)
              (fun _ => .ok "gid") (i : Int)))
    ∧ (∃ r : MsgResults,
      (sendBulkMessages true ['h', 'i'] [['2', '@', 'c', '.', 'u', 's'], ['3', '@', 'c', '.', 'u', 's']]
          3 (fun j => if j = 0 then .ok "m" else .error "net") (fun _ => 0)).result = .ok r
      ∧ r.success + r.failed = 2
      ∧ r.details.length = 2
      ∧ ∀ j : Nat, j < 2 → r.details[j]?
          = some (mkMsgRecord [['2', '@', 'c', '.', 'u', 's'], ['3', '@', 'c', '.', 'u', 's']]
              (fun j => if j = 0 then .ok "m" else .error "net") j))) :=
  ⟨by rfl, by decide,
    claim1_accounting ['G'] 3 [['1', '@', 'c', '.', 'u', 's']] {}
      (fun _ => .ok "gid") (fun _ => 0)
      ['h', 'i'] [['2', '@', 'c', '.', 'u', 's'], ['3', '@', 'c', '.', 'u', 's']] 3
      (fun j => if j = 0 then .ok "m" else .error "net") (fun _ => 0)
      (by rfl) (by decide)⟩

/-- `(N + b - 1) / b = 1` when `1 ≤ N ≤ b`: one batch exactly. -/
theorem natCeil_eq_one {N b : Nat} (h1 : 1 ≤ N) (h2 : N ≤ b) : (N + b - 1) / b = 1 := by
  have hlow : 1 * b ≤ N + b - 1 := by omega
  have hhigh : N + b - 1 < (1 + 1) * b := by omega
  exact Nat.div_eq_of_lt_le hlow hhigh

/-- Claim C2: for unit lists of size `N ≥ 1` and batch size `B > 0`, both
orchestrators partition the units into `ceil(N/B)` contiguous batches
processed in submission order (the sequence of collaborator calls is exactly
units `0..N-1` in order), the inter-batch cooldown event fires exactly
`ceil(N/B) - 1` times, and `B ≥ N` gives exactly one batch and no cooldown.
The message path uses the fixed batch size `ANTI_BAN.BATCH_SIZE = 26`. -/
theorem claim2_batching
    (pfx : List Char) (count : Nat) (participants : List (List Char)) (opts : GroupOptions)
    (oracle : Int → Except String String) (rnd : Nat → ℚ)
    (message : List Char) (recipients : List (List Char)) (delaySeconds : Int)
    (moracle : Nat → Except String String) (mrnd : Nat → ℚ)
    (hvalid : validateParticipants participants = .ok ())
    (hb : 0 < (mkSettings opts).batchSize)
    (hN : 1 ≤ count) (hM : 1 ≤ recipients.length) :
    ((jsCeilDiv (count : Int) (mkSettings opts).batchSize).toNat
        = (count + (mkSettings opts).batchSize.toNat - 1) / (mkSettings opts).batchSize.toNat
    ∧ gCallIdxs (createMultipleGroups true pfx count participants opts oracle rnd).trace
        = (List.range count).map (fun i : Nat => (i : Int))
    ∧ gCooldownCount (createMultipleGroups true pfx count participants opts oracle rnd).trace
        = (count + (mkSettings opts).batchSize.toNat - 1) / (mkSettings opts).batchSize.toNat - 1
    ∧ ((count : Int) ≤ (mkSettings opts).batchSize →
        (count + (mkSettings opts).batchSize.toNat - 1) / (mkSettings opts).batchSize.toNat = 1
        ∧ gCooldownCount (createMultipleGroups true pfx count participants opts oracle rnd).trace = 0))
    ∧ ((jsCeilDiv (recipients.length : Int) ((ANTI_BAN_BATCH_SIZE : Nat) : Int)).toNat
        = (recipients.length + ANTI_BAN_BATCH_SIZE - 1) / ANTI_BAN_BATCH_SIZE
    ∧ mSentRecipients (sendBulkMessages true message recipients delaySeconds moracle mrnd).trace
        = recipients
    ∧ mCooldownCount (sendBulkMessages true message recipients delaySeconds moracle mrnd).trace
        = (recipients.length + ANTI_BAN_BATCH_SIZE - 1) / ANTI_BAN_BATCH_SIZE - 1
    ∧ (recipients.length ≤ ANTI_BAN_BATCH_SIZE →
        (recipients.length + ANTI_BAN_BATCH_SIZE - 1) / ANTI_BAN_BATCH_SIZE = 1
        ∧ mCooldownCount (sendBulkMessages true message recipients delaySeconds moracle mrnd).trace
          = 0)) := by
  have hrun := createMultipleGroups_run pfx count participants opts oracle rnd hvalid
  have hmrun := sendBulkMessages_run message recipients delaySeconds moracle mrnd
  set s := mkSettings opts with hs
  have hB : s.batchSize = (s.batchSize.toNat : Int) := by omega
  have hbpos : 0 < s.batchSize.toNat := by omega
  constructor
  · refine ⟨?_, ?_, ?_, ?_⟩
    · rw [hB, jsCeilDiv_eq_natCeil count s.batchSize.toNat hbpos]
      exact Int.toNat_natCast _
    · rw [hrun]
      exact groupLoop_callIdxs s pfx count _ oracle rnd hb
    · rw [hrun]
      exact groupLoop_cooldownCount s pfx count _ oracle rnd hb
    · intro hle
      have hle' : count ≤ s.batchSize.toNat := by omega
      have h1 := natCeil_eq_one hN hle'
      refine ⟨h1, ?_⟩
      rw [hrun, groupLoop_cooldownCount s pfx count _ oracle rnd hb, h1]
  · refine ⟨?_, ?_, ?_, ?_⟩
    · rw [jsCeilDiv_eq_natCeil recipients.length ANTI_BAN_BATCH_SIZE
        (by norm_num [ANTI_BAN_BATCH_SIZE])]
      exact Int.toNat_natCast _
    · rw [hmrun]
      exact msgLoop_sent message recipients delaySeconds moracle mrnd
    · rw [hmrun]
      exact msgLoop_cooldownCount message recipients delaySeconds moracle mrnd
    · intro hle
      have h1 := natCeil_eq_one hM hle
      refine ⟨h1, ?_⟩
      rw [hmrun, msgLoop_cooldownCount message recipients delaySeconds moracle mrnd, h1]

/-- Witness for C2 at a concrete input: 3 groups with batch size 2 (two
batches, one cooldown), and 2 recipients (one batch of 26, no cooldown). -/
theorem claim2_batching_witness :
    validateParticipants [['1', '@', 'c', '.', 'u', 's']] = .ok ()
    ∧ 0 < (mkSettings { batchSize := some 2 }).batchSize
    ∧ 1 ≤ 3 ∧ 1 ≤ ([['2', '@', 'c', '.', 'u', 's'], ['3', '@', 'c', '.', 'u', 's']] : List (List Char)).length
    ∧ gCooldownCount (createMultipleGroups true ['G'] 3 [['1', '@', 'c', '.', 'u', 's']]
        { batchSize := some 2 } (fun _ => .ok "gid") (fun _ => 0)).trace
      = (3 + (mkSettings { batchSize := some 2 }).batchSize.toNat - 1)
          / (mkSettings { batchSize := some 2 }).batchSize.toNat - 1
    ∧ mCooldownCount (sendBulkMessages true ['h', 'i']
        [['2', '@', 'c', '.', 'u', 's'], ['3', '@', 'c', '.', 'u', 's']] 3
        (fun _ => .ok "m") (fun _ => 0)).trace = 0 := by
  have h := claim2_batching ['G'] 3 [['1', '@', 'c', '.', 'u', 's']] { batchSize := some 2 }
    (fun _ => .ok "gid") (fun _ => 0)
    ['h', 'i'] [['2', '@', 'c', '.', 'u', 's'], ['3', '@', 'c', '.', 'u', 's']] 3
    (fun _ => .ok "m") (fun _ => 0)
    (by rfl) (by decide) (by decide) (by decide)
  exact ⟨by rfl, by decide, by decide, by decide, h.1.2.2.1, (h.2.2.2.2 (by decide)).2⟩

/-- Claim C3: an individual collaborator failure is recorded as a
`success := false` outcome entry carrying the error message, the failed
counter is incremented (`success + failed` still accounts for every unit),
iteration continues (all `N` entries exist), and the failure is never
surfaced as a run-level exception (the run still returns `.ok`). -/
theorem claim3_unit_failure_isolated
    (pfx : List Char) (count : Nat) (participants : List (List Char)) (opts : GroupOptions)
    (oracle : Int → Except String String) (rnd : Nat → ℚ)
    (message : List Char) (recipients : List (List Char)) (delaySeconds : Int)
    (moracle : Nat → Except String String) (mrnd : Nat → ℚ)
    (hvalid : validateParticipants participants = .ok ())
    (hb : 0 < (mkSettings opts).batchSize)
    (i : Nat) (hi : i < count) (e : String) (he : oracle (i : Int) = .error e)
    (j : Nat) (hj : j < recipients.length) (e2 : String) (hem : moracle j = .error e2) :
    (∃ r : GroupResults,
      (createMultipleGroups true pfx count participants opts oracle rnd).result = .ok r
      ∧ r.groups.length = count
      ∧ r.success + r.failed = count
      ∧ r.groups[i]? = some
          { name := groupNameAt (mkSettings opts) pfx
              ((intDecimal ((mkSettings opts).startingNumber + (count : Int) - 1)).length)
              (i : Int)
            number := (mkSettings opts).startingNumber + (i : Int)
            id := none, success := false, error := some e })
    ∧ (∃ r : MsgResults,
      (sendBulkMessages true message recipients delaySeconds moracle mrnd).result = .ok r
      ∧ r.details.length = recipients.length
      ∧ r.success + r.failed = recipients.length
      ∧ r.details[j]? = some
          { recipient := recipients.getD j [], success := false
            messageId := none, error := some e2 }) := by
  obtain ⟨⟨r, hr, hsum, hlen, hget⟩, ⟨r2, hr2, hsum2, hlen2, hget2⟩⟩ :=
    runs_accounting pfx count participants opts oracle rnd
      message recipients delaySeconds moracle mrnd hvalid hb
  constructor
  · refine ⟨r, hr, hlen, hsum, ?_⟩
    rw [hget i hi]
    simp [mkGroupRecord, he]
  · refine ⟨r2, hr2, hlen2, hsum2, ?_⟩
    rw [hget2 j hj]
    simp [mkMsgRecord, hem]

/-- Witness for C3 at a concrete input: the second of two group creations
fails with "dup"; the first of two sends fails with "net". -/
theorem claim3_unit_failure_isolated_witness :
    validateParticipants [['1', '@', 'c', '.', 'u', 's']] = .ok ()
    ∧ 0 < (mkSettings {}).batchSize
    ∧ (1 : Nat) < 2
    ∧ (fun i : Int => if i = 1 then (Except.error "dup" : Except String String) else .ok "gid")
        ((1 : Nat) : Int) = .error "dup"
    ∧ (0 : Nat) < 2
    ∧ (fun j : Nat => if j = 0 then (Except.error "net" : Except String String) else .ok "m") 0
        = .error "net"
    ∧ ((∃ r : GroupResults,
      (createMultipleGroups true ['G'] 2 [['1', '@', 'c', '.', 'u', 's']] {}
          (fun i : Int => if i = 1 then (Except.error "dup" : Except String String) else .ok "gid")
          (fun _ => 0)).result = .ok r
      ∧ r.groups.length = 2
      ∧ r.success + r.failed = 2
      ∧ r.groups[(1 : Nat)]? = some
          { name := groupNameAt (mkSettings {}) ['G']
              ((intDecimal ((mkSettings {}).startingNumber + ((2 : Nat) : Int) - 1)).length)
              ((1 : Nat) : Int)
            number := (mkSettings {}).startingNumber + ((1 : Nat) : Int)
            id := none, success := false, error := some "dup" })
    ∧ (∃ r : MsgResults,
      (sendBulkMessages true ['h', 'i']
          [['2', '@', 'c', '.', 'u', 's'], ['3', '@', 'c', '.', 'u', 's']] 3
          (fun j : Nat => if j = 0 then (Except.error "net" : Except String String) else .ok "m")
          (fun _ => 0)).result = .ok r
      ∧ r.details.length = 2
      ∧ r.success + r.failed = 2
      ∧ r.details[(0 : Nat)]? = some
          { recipient := [['2', '@', 'c', '.', 'u', 's'], ['3', '@', 'c', '.', 'u', 's']].getD 0 []
            success := false, messageId := none, error := some "net" })) :=
  ⟨by rfl, by decide, by decide, by rfl, by decide, by rfl,
    claim3_unit_failure_isolated ['G'] 2 [['1', '@', 'c', '.', 'u', 's']] {}
      (fun i : Int => if i = 1 then (Except.error "dup" : Except String String) else .ok "gid")
      (fun _ => 0)
      ['h', 'i'] [['2', '@', 'c', '.', 'u', 's'], ['3', '@', 'c', '.', 'u', 's']] 3
      (fun j : Nat => if j = 0 then (Except.error "net" : Except String String) else .ok "m")
      (fun _ => 0)
      (by rfl) (by decide) 1 (by decide) "dup" (by rfl) 0 (by decide) "net" (by rfl)⟩

theorem mem_concatMap {F : α → List β} {l : List α} {x : β} :
    x ∈ concatMap F l ↔ ∃ a ∈ l, x ∈ F a := by
  induction l with
  | nil => simp [concatMap]
  | cons a l ih => simp [concatMap, ih]

/-- Counterexample to C4 as stated: on the group-creation path with fixed
delay `D = 1` second and two units, the single pacing wait is exactly
1000 ms for every random draw — no jitter offset from the 1000-6000 ms range
is added. -/
theorem claim4_counterexample :
    gUnitWaits (createMultipleGroups true ['G'] 2 [['1', '@', 'c', '.', 'u', 's']]
        { delaySeconds := some 1 } (fun _ => .ok "gid") (fun _ => 0)).trace = [1000]
    ∧ ¬ ∃ j : Int, 1000 ≤ j ∧ j ≤ 6000 ∧ (1000 : Int) = 1 * 1000 + j := by
  constructor
  · rw [createMultipleGroups_run ['G'] 2 [['1', '@', 'c', '.', 'u', 's']]
      { delaySeconds := some 1 } (fun _ => .ok "gid") (fun _ => 0) (by rfl)]
    rw [groupLoop_unitWaits (mkSettings { delaySeconds := some 1 }) ['G'] 2 _
      (fun _ => .ok "gid") (fun _ => 0) (by decide)]
    decide
  · rintro ⟨j, h1, h2, h3⟩
    omega

/-- Claim C4 (amended): in fixed mode the message-sending path waits
`D * 1000` ms plus a per-unit jitter offset drawn uniformly from
`[1000 ms, 6000 ms)` (integer values 1000..5999); the group-creation path
adds no jitter in fixed mode — every pacing wait there is exactly
`D * 1000` ms. -/
theorem claim4_amended
    (pfx : List Char) (count : Nat) (participants : List (List Char)) (opts : GroupOptions)
    (oracle : Int → Except String String) (rnd : Nat → ℚ)
    (message : List Char) (recipients : List (List Char)) (delaySeconds : Int)
    (moracle : Nat → Except String String) (mrnd : Nat → ℚ)
    (hvalid : validateParticipants participants = .ok ())
    (hb : 0 < (mkSettings opts).batchSize)
    (hd : 0 < (mkSettings opts).delaySeconds)
    (hrnd : ∀ n, 0 ≤ mrnd n ∧ mrnd n < 1) :
    (∀ w ∈ gUnitWaits (createMultipleGroups true pfx count participants opts oracle rnd).trace,
      w = (mkSettings opts).delaySeconds * 1000)
    ∧ (∀ w ∈ mUnitWaits (sendBulkMessages true message recipients delaySeconds moracle mrnd).trace,
      ∃ off : Int, 1000 ≤ off ∧ off ≤ 5999 ∧ w = delaySeconds * 1000 + off) := by
  constructor
  · intro w hw
    rw [createMultipleGroups_run pfx count participants opts oracle rnd hvalid,
      groupLoop_unitWaits (mkSettings opts) pfx count _ oracle rnd hb] at hw
    obtain ⟨i, _, hwi⟩ := mem_concatMap.mp hw
    by_cases hip : 0 < ((i : Nat) : Int)
    · rw [if_pos hip] at hwi
      simp only [List.mem_singleton] at hwi
      rw [hwi, gWaitAt, if_pos hd]
    · rw [if_neg hip] at hwi
      simp at hwi
  · intro w hw
    rw [sendBulkMessages_run message recipients delaySeconds moracle mrnd,
      msgLoop_unitWaits message recipients delaySeconds moracle mrnd] at hw
    obtain ⟨j, _, hwj⟩ := mem_concatMap.mp hw
    by_cases hjp : 0 < j
    · rw [if_pos hjp] at hwj
      simp only [List.mem_singleton] at hwj
      rw [hwj, mWaitAt]
      exact getRandomizedDelay_offset delaySeconds (mrnd (3 * j)) (hrnd _).1 (hrnd _).2
    · rw [if_neg hjp] at hwj
      simp at hwj

/-- Witness for the amended C4 at a concrete input: fixed delay 2 s on the
group path, delay 3 s and the constant draw 1/2 on the message path. -/
theorem claim4_amended_witness :
    validateParticipants [['1', '@', 'c', '.', 'u', 's']] = .ok ()
    ∧ 0 < (mkSettings { delaySeconds := some 2 }).batchSize
    ∧ 0 < (mkSettings { delaySeconds := some 2 }).delaySeconds
    ∧ (∀ n : Nat, 0 ≤ ((fun _ => (1 : ℚ) / 2) n) ∧ ((fun _ => (1 : ℚ) / 2) n) < 1)
    ∧ ((∀ w ∈ gUnitWaits (createMultipleGroups true ['G'] 2 [['1', '@', 'c', '.', 'u', 's']]
          { delaySeconds := some 2 } (fun _ => .ok "gid") (fun _ => 0)).trace,
        w = (mkSettings { delaySeconds := some 2 }).delaySeconds * 1000)
    ∧ (∀ w ∈ mUnitWaits (sendBulkMessages true ['h', 'i']
          [['2', '@', 'c', '.', 'u', 's'], ['3', '@', 'c', '.', 'u', 's']] 3
          (fun _ => .ok "m") (fun _ => (1 : ℚ) / 2)).trace,
        ∃ off : Int, 1000 ≤ off ∧ off ≤ 5999 ∧ w = 3 * 1000 + off)) :=
  ⟨by rfl, by decide, by decide, fun n => ⟨by norm_num, by norm_num⟩,
    claim4_amended ['G'] 2 [['1', '@', 'c', '.', 'u', 's']] { delaySeconds := some 2 }
      (fun _ => .ok "gid") (fun _ => 0)
      ['h', 'i'] [['2', '@', 'c', '.', 'u', 's'], ['3', '@', 'c', '.', 'u', 's']] 3
      (fun _ => .ok "m") (fun _ => (1 : ℚ) / 2)
      (by rfl) (by decide) (by decide) (fun n => ⟨by norm_num, by norm_num⟩)⟩

/-- A validated participant list contains only identifiers matching the
phone regex. -/
theorem validate_ok_all (ps : List (List Char))
    (h : validateParticipants ps = .ok ()) : ∀ p ∈ ps, matchesPhonePattern p = true := by
  intro p hp
  unfold validateParticipants at h
  by_cases h0 : ps.length = 0
  · simp [h0] at h
  · rw [if_neg h0] at h
    by_cases h256 : ps.length > 256
    · simp [h256] at h
    · rw [if_neg h256] at h
      by_cases hinv : (ps.filter (fun number => !(matchesPhonePattern number))).length > 0
      · simp [hinv] at h
      · have hnil : ps.filter (fun number => !(matchesPhonePattern number)) = [] := by
          cases hfe : ps.filter (fun number => !(matchesPhonePattern number)) with
          | nil => rfl
          | cons a l => rw [hfe] at hinv; simp at hinv
        have := List.filter_eq_nil_iff.mp hnil p hp
        simpa using this

/-- A run whose participant validation fails is rejected with an empty
trace. -/
theorem createMultipleGroups_rejected (pfx : List Char) (count : Nat)
    (participants : List (List Char)) (opts : GroupOptions)
    (oracle : Int → Except String String) (rnd : Nat → ℚ)
    (e : String) (hval : validateParticipants participants = .error e) :
    (createMultipleGroups true pfx count participants opts oracle rnd).result = .error e
    ∧ (createMultipleGroups true pfx count participants opts oracle rnd).trace = [] := by
  constructor <;> simp [createMultipleGroups, hval]

/-- Counterexample to C5 as stated: `sendBulkMessages` performs no
identifier validation — with the malformed recipient `"abc"` the run is not
rejected, and the collaborator `sendMessage` call is made with the malformed
identifier. -/
theorem claim5_counterexample :
    matchesPhonePattern ['a', 'b', 'c'] = false
    ∧ mSentRecipients (sendBulkMessages true ['h', 'i'] [['a', 'b', 'c']] 3
        (fun _ => .ok "m") (fun _ => 0)).trace = [['a', 'b', 'c']]
    ∧ ∃ r : MsgResults,
        (sendBulkMessages true ['h', 'i'] [['a', 'b', 'c']] 3
          (fun _ => .ok "m") (fun _ => 0)).result = .ok r
        ∧ r.details.length = 1 := by
  refine ⟨by decide, ?_, ?_⟩
  · rw [sendBulkMessages_run ['h', 'i'] [['a', 'b', 'c']] 3 (fun _ => .ok "m") (fun _ => 0)]
    exact msgLoop_sent ['h', 'i'] [['a', 'b', 'c']] 3 (fun _ => .ok "m") (fun _ => 0)
  · rw [sendBulkMessages_run ['h', 'i'] [['a', 'b', 'c']] 3 (fun _ => .ok "m") (fun _ => 0)]
    refine ⟨_, rfl, ?_⟩
    rw [msgLoop_details ['h', 'i'] [['a', 'b', 'c']] 3 (fun _ => .ok "m") (fun _ => 0)]
    simp

/-- Claim C5 (amended): only the group-creation path validates identifiers:
a participant failing `^\d+@c\.us$` rejects the run before any batch (empty
trace, so zero collaborator calls), and a run that proceeds has only valid
participants.  The message-sending path performs no recipient validation:
every recipient — malformed or not — is passed to `sendMessage` verbatim. -/
theorem claim5_amended
    (pfx : List Char) (count : Nat) (participants : List (List Char)) (opts : GroupOptions)
    (oracle : Int → Except String String) (rnd : Nat → ℚ)
    (message : List Char) (recipients : List (List Char)) (delaySeconds : Int)
    (moracle : Nat → Except String String) (mrnd : Nat → ℚ) :
    ((∃ p ∈ participants, matchesPhonePattern p = false) →
      (∃ e, (createMultipleGroups true pfx count participants opts oracle rnd).result = .error e)
      ∧ (createMultipleGroups true pfx count participants opts oracle rnd).trace = [])
    ∧ (∀ r : GroupResults,
        (createMultipleGroups true pfx count participants opts oracle rnd).result = .ok r →
        ∀ p ∈ participants, matchesPhonePattern p = true)
    ∧ mSentRecipients (sendBulkMessages true message recipients delaySeconds moracle mrnd).trace
        = recipients := by
  refine ⟨?_, ?_, ?_⟩
  · intro hbad
    cases hval : validateParticipants participants with
    | error e =>
      obtain ⟨h1, h2⟩ := createMultipleGroups_rejected pfx count participants opts oracle rnd e hval
      exact ⟨⟨e, h1⟩, h2⟩
    | ok u =>
      obtain ⟨p, hp, hpat⟩ := hbad
      cases u
      have := validate_ok_all participants hval p hp
      rw [this] at hpat
      cases hpat
  · intro r hr p hp
    cases hval : validateParticipants participants with
    | error e =>
      obtain ⟨h1, _⟩ := createMultipleGroups_rejected pfx count participants opts oracle rnd e hval
      rw [h1] at hr
      cases hr
    | ok u =>
      cases u
      exact validate_ok_all participants hval p hp
  · rw [sendBulkMessages_run message recipients delaySeconds moracle mrnd]
    exact msgLoop_sent message recipients delaySeconds moracle mrnd

/-- Witness for the amended C5 at a concrete input: participant list
containing the malformed `"abc"` is rejected with an empty trace on the
group path; the same malformed recipient is passed through verbatim on the
message path. -/
theorem claim5_amended_witness :
    (∃ p ∈ ([['a', 'b', 'c']] : List (List Char)), matchesPhonePattern p = false)
    ∧ (∃ e, (createMultipleGroups true ['G'] 1 [['a', 'b', 'c']] {}
        (fun _ => .ok "gid") (fun _ => 0)).result = .error e)
    ∧ (createMultipleGroups true ['G'] 1 [['a', 'b', 'c']] {}
        (fun _ => .ok "gid") (fun _ => 0)).trace = []
    ∧ mSentRecipients (sendBulkMessages true ['h', 'i'] [['a', 'b', 'c']] 3
        (fun _ => .ok "m") (fun _ => 0)).trace = [['a', 'b', 'c']] := by
  have h := claim5_amended ['G'] 1 [['a', 'b', 'c']] {} (fun _ => .ok "gid") (fun _ => 0)
    ['h', 'i'] [['a', 'b', 'c']] 3 (fun _ => .ok "m") (fun _ => 0)
  have hbad : ∃ p ∈ ([['a', 'b', 'c']] : List (List Char)), matchesPhonePattern p = false :=
    ⟨['a', 'b', 'c'], by decide, by decide⟩
  exact ⟨hbad, (h.1 hbad).1, (h.1 hbad).2, h.2.2⟩

/-- Claim C6: the pacing computation never returns a negative delay (the
adaptive `getRateLimit` for any count, the fixed-mode `getRandomizedDelay`
for the nonnegative delays enforced by the command layer), and in adaptive
mode the delay is the stepped base (thresholds 10/20/30) times a random
factor in `[0.5, 1.5)`; the delay is pointwise non-decreasing in the
cumulative count for every fixed draw, hence so is its expected value. -/
theorem claim6_pacing (c c' : Int) (hcc : c ≤ c') (r : ℚ) (h0 : 0 ≤ r) (h1 : r < 1)
    (d : Int) (hd : 0 ≤ d) :
    0 ≤ getRateLimit c r
    ∧ 0 ≤ getRandomizedDelay d r
    ∧ (∃ f : ℚ, 1 / 2 ≤ f ∧ f < 3 / 2 ∧ getRateLimit c r = Int.floor (steppedBaseDelay c * f))
    ∧ getRateLimit c r ≤ getRateLimit c' r
    ∧ steppedBaseDelay c ≤ steppedBaseDelay c' :=
  ⟨getRateLimit_nonneg c r h0,
    getRandomizedDelay_nonneg d r hd h0 h1,
    ⟨1 / 2 + r, by linarith, by linarith, rfl⟩,
    getRateLimit_mono r hcc h0,
    steppedBaseDelay_mono hcc⟩

/-- Witness for C6 at the concrete input `c = 5`, `c' = 25`, `r = 1/2`,
`d = 3`. -/
theorem claim6_pacing_witness :
    (5 : Int) ≤ 25 ∧ (0 : ℚ) ≤ 1 / 2 ∧ (1 : ℚ) / 2 < 1 ∧ (0 : Int) ≤ 3
    ∧ (0 ≤ getRateLimit 5 (1 / 2)
    ∧ 0 ≤ getRandomizedDelay 3 (1 / 2)
    ∧ (∃ f : ℚ, 1 / 2 ≤ f ∧ f < 3 / 2
        ∧ getRateLimit 5 (1 / 2) = Int.floor (steppedBaseDelay 5 * f))
    ∧ getRateLimit 5 (1 / 2) ≤ getRateLimit 25 (1 / 2)
    ∧ steppedBaseDelay 5 ≤ steppedBaseDelay 25) :=
  ⟨by norm_num, by norm_num, by norm_num, by norm_num,
    claim6_pacing 5 25 (by norm_num) (1 / 2) (by norm_num) (by norm_num) 3 (by norm_num)⟩

/-- Claim C7: for every non-empty input, the content variator's output
length lies in `[len, len + 2]` (the implementation in fact never adds more
than one character), the output is never empty, and the no-op rule is a
possible draw: some admissible selection draw returns the input unchanged. -/
theorem claim7_variation (msg : List Char) (hmsg : msg ≠ []) (r1 r2 : ℚ)
    (h10 : 0 ≤ r1) (h11 : r1 < 1) (h20 : 0 ≤ r2) (h21 : r2 < 1) :
    msg.length ≤ (addMessageVariation msg r1 r2).length
    ∧ (addMessageVariation msg r1 r2).length ≤ msg.length + 2
    ∧ addMessageVariation msg r1 r2 ≠ []
    ∧ ∃ r : ℚ, 0 ≤ r ∧ r < 1 ∧ addMessageVariation msg r r2 = msg := by
  have hlen1 : 1 ≤ msg.length := List.length_pos.mpr hmsg
  have hmain : msg.length ≤ (addMessageVariation msg r1 r2).length
      ∧ (addMessageVariation msg r1 r2).length ≤ msg.length + 1 := by
    obtain ⟨idx, hidxeq, hidx⟩ :
        ∃ idx, (Int.floor (r1 * ((MESSAGE_VARIATIONS.length : Nat) : ℚ))).toNat = idx
          ∧ idx < 10 :=
      ⟨_, rfl, variationIdx_lt h10 h11⟩
    have hpos : invisiblePosition msg.length r2 ≤ msg.length - 1 :=
      invisiblePosition_le hlen1 r2 h20 h21
    simp only [addMessageVariation, hidxeq]
    interval_cases idx <;>
      simp [MESSAGE_VARIATIONS, replaceFirst_length, List.length_append,
        List.length_take, List.length_drop] <;>
      omega
  have hnoop : addMessageVariation msg 0 r2 = msg := by
    simp [addMessageVariation, MESSAGE_VARIATIONS]
  obtain ⟨hm1, hm2⟩ := hmain
  refine ⟨hm1, by omega, ?_, ⟨0, le_refl 0, by norm_num, hnoop⟩⟩
  have hlp : 0 < (addMessageVariation msg r1 r2).length := by omega
  exact List.length_pos.mp hlp

/-- Witness for C7 at the concrete input `"hi"` with draws `r1 = 9/10`
(invisible-marker rule) and `r2 = 0`. -/
theorem claim7_variation_witness :
    (['h', 'i'] : List Char) ≠ []
    ∧ (0 : ℚ) ≤ 9 / 10 ∧ (9 : ℚ) / 10 < 1 ∧ (0 : ℚ) ≤ 0 ∧ (0 : ℚ) < 1
    ∧ ((['h', 'i'] : List Char).length ≤ (addMessageVariation ['h', 'i'] (9 / 10) 0).length
    ∧ (addMessageVariation ['h', 'i'] (9 / 10) 0).length ≤ (['h', 'i'] : List Char).length + 2
    ∧ addMessageVariation ['h', 'i'] (9 / 10) 0 ≠ []
    ∧ ∃ r : ℚ, 0 ≤ r ∧ r < 1 ∧ addMessageVariation ['h', 'i'] r 0 = ['h', 'i']) :=
  ⟨by decide, by norm_num, by norm_num, by norm_num, by norm_num,
    claim7_variation ['h', 'i'] (by decide) (9 / 10) 0
      (by norm_num) (by norm_num) (by norm_num) (by norm_num)⟩

/-- Counterexample to C8 as stated: a configured batch size of `0` is not
strictly positive, yet the run is not rejected — JS `0 || 10` silently
replaces it with the default 10, a unit IS attempted (one `createGroup`
call) and an outcome record is produced. -/
theorem claim8_counterexample :
    ¬ (0 < (0 : Int))
    ∧ (mkSettings { batchSize := some 0 }).batchSize = 10
    ∧ gCallIdxs (createMultipleGroups true ['G'] 1 [['1', '@', 'c', '.', 'u', 's']]
        { batchSize := some 0 } (fun _ => .ok "gid") (fun _ => 0)).trace = [0]
    ∧ ∃ r : GroupResults,
        (createMultipleGroups true ['G'] 1 [['1', '@', 'c', '.', 'u', 's']]
          { batchSize := some 0 } (fun _ => .ok "gid") (fun _ => 0)).result = .ok r
        ∧ r.groups.length = 1 := by
  refine ⟨by norm_num, by decide, ?_, ?_⟩
  · rw [createMultipleGroups_run ['G'] 1 [['1', '@', 'c', '.', 'u', 's']]
      { batchSize := some 0 } (fun _ => .ok "gid") (fun _ => 0) (by rfl)]
    rw [groupLoop_callIdxs (mkSettings { batchSize := some 0 }) ['G'] 1 _
      (fun _ => .ok "gid") (fun _ => 0) (by decide)]
    decide
  · rw [createMultipleGroups_run ['G'] 1 [['1', '@', 'c', '.', 'u', 's']]
      { batchSize := some 0 } (fun _ => .ok "gid") (fun _ => 0) (by rfl)]
    refine ⟨_, rfl, ?_⟩
    rw [groupLoop_groups (mkSettings { batchSize := some 0 }) ['G'] 1 _
      (fun _ => .ok "gid") (fun _ => 0) (by decide)]
    simp

/-- Claim C8 (amended): `createMultipleGroups` rejects before any unit —
with an empty trace, hence zero collaborator calls and zero outcome
records — when the participant list is empty, has more than 256 entries, or
contains a malformed identifier, and when the client is not ready.  A
non-strictly-positive batch size is NOT rejected: `batchSize = 0` falls back
to the default 10 via JS `||` and the run proceeds, producing one record per
unit. -/
theorem claim8_amended
    (pfx : List Char) (count : Nat) (participants : List (List Char)) (opts : GroupOptions)
    (oracle : Int → Except String String) (rnd : Nat → ℚ) :
    (participants = [] →
      (∃ e, (createMultipleGroups true pfx count participants opts oracle rnd).result = .error e)
      ∧ (createMultipleGroups true pfx count participants opts oracle rnd).trace = [])
    ∧ (participants.length > 256 →
      (∃ e, (createMultipleGroups true pfx count participants opts oracle rnd).result = .error e)
      ∧ (createMultipleGroups true pfx count participants opts oracle rnd).trace = [])
    ∧ ((∃ p ∈ participants, matchesPhonePattern p = false) →
      (∃ e, (createMultipleGroups true pfx count participants opts oracle rnd).result = .error e)
      ∧ (createMultipleGroups true pfx count participants opts oracle rnd).trace = [])
    ∧ ((∃ e, (createMultipleGroups false pfx count participants opts oracle rnd).result = .error e)
      ∧ (createMultipleGroups false pfx count participants opts oracle rnd).trace = [])
    ∧ (mkSettings { opts with batchSize := some 0 }).batchSize = 10
    ∧ (validateParticipants participants = .ok () →
      ∃ r : GroupResults,
        (createMultipleGroups true pfx count participants { opts with batchSize := some 0 }
          oracle rnd).result = .ok r
        ∧ r.groups.length = count) := by
  refine ⟨?_, ?_, ?_, ?_, ?_, ?_⟩
  · intro hnil
    have hval : validateParticipants participants = .error "No participants provided" := by
      subst hnil; rfl
    obtain ⟨h1, h2⟩ := createMultipleGroups_rejected pfx count participants opts oracle rnd _ hval
    exact ⟨⟨_, h1⟩, h2⟩
  · intro h256
    have hval : validateParticipants participants
        = .error "Too many participants. WhatsApp allows a maximum of 256 participants." := by
      unfold validateParticipants
      rw [if_neg (by omega), if_pos h256]
    obtain ⟨h1, h2⟩ := createMultipleGroups_rejected pfx count participants opts oracle rnd _ hval
    exact ⟨⟨_, h1⟩, h2⟩
  · intro hbad
    cases hval : validateParticipants participants with
    | error e =>
      obtain ⟨h1, h2⟩ := createMultipleGroups_rejected pfx count participants opts oracle rnd e hval
      exact ⟨⟨e, h1⟩, h2⟩
    | ok u =>
      obtain ⟨p, hp, hpat⟩ := hbad
      cases u
      have := validate_ok_all participants hval p hp
      rw [this] at hpat
      cases hpat
  · constructor <;> simp [createMultipleGroups]
  · simp [mkSettings, jsOr]
  · intro hvalid
    have hb10 : (mkSettings { opts with batchSize := some 0 }).batchSize = 10 := by
      simp [mkSettings, jsOr]
    have hb : 0 < (mkSettings { opts with batchSize := some 0 }).batchSize := by
      rw [hb10]; norm_num
    have hrun := createMultipleGroups_run pfx count participants
      { opts with batchSize := some 0 } oracle rnd hvalid
    refine ⟨_, by rw [hrun], ?_⟩
    rw [groupLoop_groups (mkSettings { opts with batchSize := some 0 }) pfx count _
      oracle rnd hb]
    simp

/-- Witness for the amended C8: the concrete rejected runs and the
proceeding batch-size-0 run. -/
theorem claim8_amended_witness :
    ((∃ e, (createMultipleGroups true ['G'] 1 ([] : List (List Char)) {}
        (fun _ => .ok "gid") (fun _ => 0)).result = .error e)
      ∧ (createMultipleGroups true ['G'] 1 ([] : List (List Char)) {}
        (fun _ => .ok "gid") (fun _ => 0)).trace = [])
    ∧ ((∃ e, (createMultipleGroups false ['G'] 1 [['1', '@', 'c', '.', 'u', 's']] {}
        (fun _ => .ok "gid") (fun _ => 0)).result = .error e)
      ∧ (createMultipleGroups false ['G'] 1 [['1', '@', 'c', '.', 'u', 's']] {}
        (fun _ => .ok "gid") (fun _ => 0)).trace = [])
    ∧ (mkSettings { batchSize := some 0 }).batchSize = 10
    ∧ (∃ r : GroupResults,
        (createMultipleGroups true ['G'] 2 [['1', '@', 'c', '.', 'u', 's']]
          { batchSize := some 0 } (fun _ => .ok "gid") (fun _ => 0)).result = .ok r
        ∧ r.groups.length = 2) := by
  have hempty := claim8_amended ['G'] 1 ([] : List (List Char)) {}
    (fun _ => .ok "gid") (fun _ => 0)
  have hrdy := claim8_amended ['G'] 1 [['1', '@', 'c', '.', 'u', 's']] {}
    (fun _ => .ok "gid") (fun _ => 0)
  have hbs := claim8_amended ['G'] 2 [['1', '@', 'c', '.', 'u', 's']]
    ({} : GroupOptions) (fun _ => .ok "gid") (fun _ => 0)
  exact ⟨hempty.1 rfl, hrdy.2.2.2.1, hbs.2.2.2.2.1, hbs.2.2.2.2.2 (by rfl)⟩

/-- Counterexample to C9 as stated: the insertion offset is
`Math.floor(r * n)`, never `n` itself — for the payload `"ab"` no admissible
draw inserts the zero-width marker at the very end. -/
theorem claim9_counterexample :
    ¬ ∃ r2 : ℚ, 0 ≤ r2 ∧ r2 < 1
      ∧ addMessageVariation ['a', 'b'] (4 / 5) r2 = ['a', 'b', zwsp] := by
  rintro ⟨r2, h0, h1, heq⟩
  have hidx : (Int.floor ((4 / 5 : ℚ) * ((MESSAGE_VARIATIONS.length : Nat) : ℚ))).toNat = 8 := by
    have h10 : ((MESSAGE_VARIATIONS.length : Nat) : ℚ) = 10 := by norm_num [MESSAGE_VARIATIONS]
    rw [h10, show (4 / 5 : ℚ) * 10 = ((8 : ℤ) : ℚ) by norm_num, Int.floor_intCast]
    rfl
  simp only [addMessageVariation] at heq
  rw [hidx, show MESSAGE_VARIATIONS.getD 8 (Variation.append []) = Variation.invisible zwsp
    from rfl] at heq
  dsimp only at heq
  obtain ⟨p, hpeq⟩ : ∃ p, invisiblePosition (['a', 'b'] : List Char).length r2 = p := ⟨_, rfl⟩
  have hle2 := @invisiblePosition_le (['a', 'b'] : List Char).length (by decide) r2 h0 h1
  rw [hpeq] at hle2 heq
  have hple : p ≤ 1 := by simpa using hle2
  interval_cases p <;> exact absurd heq (by decide)

/-- Claim C9 (amended): when the invisible-marker rule is selected for a
payload of length `n ≥ 1`, the zero-width code point is inserted at offset
`Math.floor(r * n)`, which ranges uniformly over `0..n-1` (the preimage of
each offset `p` is the equal-width interval `[p/n, (p+1)/n)` of draws);
insertion at the very end of the payload (offset `n`) is not a possible
outcome. -/
theorem claim9_amended (n p : Nat) (hn : 1 ≤ n) (r : ℚ) (h0 : 0 ≤ r) (h1 : r < 1)
    (msg : List Char) (hmsg : msg ≠ []) :
    invisiblePosition n r ≤ n - 1
    ∧ (invisiblePosition n r = p ↔ ((p : ℚ) / (n : ℚ) ≤ r ∧ r < ((p : ℚ) + 1) / (n : ℚ)))
    ∧ addMessageVariation msg (4 / 5) r
      = msg.take (invisiblePosition msg.length r) ++ [zwsp]
        ++ msg.drop (invisiblePosition msg.length r) := by
  refine ⟨invisiblePosition_le hn r h0 h1, invisiblePosition_eq_iff hn r h0 h1, ?_⟩
  have hidx : (Int.floor ((4 / 5 : ℚ) * ((MESSAGE_VARIATIONS.length : Nat) : ℚ))).toNat = 8 := by
    have h10 : ((MESSAGE_VARIATIONS.length : Nat) : ℚ) = 10 := by norm_num [MESSAGE_VARIATIONS]
    rw [h10, show (4 / 5 : ℚ) * 10 = ((8 : ℤ) : ℚ) by norm_num, Int.floor_intCast]
    rfl
  simp only [addMessageVariation]
  rw [hidx, show MESSAGE_VARIATIONS.getD 8 (Variation.append []) = Variation.invisible zwsp
    from rfl]

/-- Witness for the amended C9 at `n = 2`, `p = 1`, `r = 1/2`,
payload `"ab"`. -/
theorem claim9_amended_witness :
    (1 : Nat) ≤ 2 ∧ (0 : ℚ) ≤ 1 / 2 ∧ (1 : ℚ) / 2 < 1 ∧ (['a', 'b'] : List Char) ≠ []
    ∧ (invisiblePosition 2 (1 / 2) ≤ 2 - 1
    ∧ (invisiblePosition 2 (1 / 2) = 1
        ↔ ((1 : ℚ) / (2 : ℚ) ≤ 1 / 2 ∧ (1 : ℚ) / 2 < ((1 : ℚ) + 1) / (2 : ℚ)))
    ∧ addMessageVariation ['a', 'b'] (4 / 5) (1 / 2)
      = (['a', 'b'] : List Char).take (invisiblePosition (['a', 'b'] : List Char).length (1 / 2))
        ++ [zwsp]
        ++ (['a', 'b'] : List Char).drop (invisiblePosition (['a', 'b'] : List Char).length (1 / 2))) :=
  ⟨by norm_num, by norm_num, by norm_num, by decide,
    claim9_amended 2 1 (by norm_num) (1 / 2) (by norm_num) (by norm_num) ['a', 'b'] (by decide)⟩

theorem mkGroupRecord_name (s : GroupSettings) (pfx : List Char) (maxD : Nat)
    (oracle : Int → Except String String) (idx : Int) :
    (mkGroupRecord s pfx maxD oracle idx).name = groupNameAt s pfx maxD idx := by
  unfold mkGroupRecord
  cases oracle idx <;> rfl

theorem intDecimal_length_mono_pos {m n : Int} (hm : 0 ≤ m) (h : m ≤ n) :
    (intDecimal m).length ≤ (intDecimal n).length := by
  unfold intDecimal
  rw [if_neg (by omega), if_neg (by omega)]
  exact natDecimal_length_mono (by omega)

/-- Claim C10: with `padNumbers` enabled each group name is
`<prefix> <number>` with the number left-padded with zeros to exactly the
decimal digit count of `startingNumber + count - 1` (so all numeric parts in
one run have equal length); with `padNumbers` disabled the number is
rendered without padding.  `startingNumber` is a positive integer per the
`BatchConfig` data model and the command layer's `--start` validation. -/
theorem claim10_padding
    (pfx : List Char) (count : Nat) (participants : List (List Char)) (opts : GroupOptions)
    (oracle : Int → Except String String) (rnd : Nat → ℚ)
    (hvalid : validateParticipants participants = .ok ())
    (hb : 0 < (mkSettings opts).batchSize)
    (hs : 1 ≤ (mkSettings opts).startingNumber) :
    ∃ r : GroupResults,
      (createMultipleGroups true pfx count participants opts oracle rnd).result = .ok r
      ∧ ∀ i : Nat, i < count →
        ∃ rec : GroupRecord, r.groups[i]? = some rec
          ∧ rec.name = pfx ++ ' ' ::
              (if opts.padNumbers
               then padStart (intDecimal ((mkSettings opts).startingNumber + (i : Int)))
                  ((intDecimal ((mkSettings opts).startingNumber + (count : Int) - 1)).length) '0'
               else intDecimal ((mkSettings opts).startingNumber + (i : Int)))
          ∧ (opts.padNumbers = true →
              (padStart (intDecimal ((mkSettings opts).startingNumber + (i : Int)))
                ((intDecimal ((mkSettings opts).startingNumber + (count : Int) - 1)).length)
                '0').length
              = (intDecimal ((mkSettings opts).startingNumber + (count : Int) - 1)).length) := by
  have hrun := createMultipleGroups_run pfx count participants opts oracle rnd hvalid
  refine ⟨_, by rw [hrun], ?_⟩
  intro i hi
  refine ⟨mkGroupRecord (mkSettings opts) pfx
      ((intDecimal ((mkSettings opts).startingNumber + (count : Int) - 1)).length)
      oracle (i : Int), ?_, ?_, ?_⟩
  · rw [groupLoop_groups (mkSettings opts) pfx count _ oracle rnd hb]
    simp [List.getElem?_range, hi]
  · rw [mkGroupRecord_name]
    rfl
  · intro _
    rw [padStart_length]
    have hmono := intDecimal_length_mono_pos
      (m := (mkSettings opts).startingNumber + (i : Int))
      (n := (mkSettings opts).startingNumber + (count : Int) - 1)
      (by omega) (by omega)
    omega

/-- Witness for C10 at a concrete input: ten groups, default starting number
1, `padNumbers` enabled — every numeric part is padded to the two digits of
the end number 10. -/
theorem claim10_padding_witness :
    validateParticipants [['1', '@', 'c', '.', 'u', 's']] = .ok ()
    ∧ 0 < (mkSettings { padNumbers := true }).batchSize
    ∧ 1 ≤ (mkSettings { padNumbers := true }).startingNumber
    ∧ ∃ r : GroupResults,
      (createMultipleGroups true ['G'] 10 [['1', '@', 'c', '.', 'u', 's']]
          { padNumbers := true } (fun _ => .ok "gid") (fun _ => 0)).result = .ok r
      ∧ ∀ i : Nat, i < 10 →
        ∃ rec : GroupRecord, r.groups[i]? = some rec
          ∧ rec.name = ['G'] ++ ' ' ::
              (if ({ padNumbers := true } : GroupOptions).padNumbers
               then padStart (intDecimal ((mkSettings { padNumbers := true }).startingNumber + (i : Int)))
                  ((intDecimal ((mkSettings { padNumbers := true }).startingNumber + ((10 : Nat) : Int) - 1)).length) '0'
               else intDecimal ((mkSettings { padNumbers := true }).startingNumber + (i : Int)))
          ∧ (({ padNumbers := true } : GroupOptions).padNumbers = true →
              (padStart (intDecimal ((mkSettings { padNumbers := true }).startingNumber + (i : Int)))
                ((intDecimal ((mkSettings { padNumbers := true }).startingNumber + ((10 : Nat) : Int) - 1)).length)
                '0').length
              = (intDecimal ((mkSettings { padNumbers := true }).startingNumber + ((10 : Nat) : Int) - 1)).length) :=
  ⟨by rfl, by decide, by decide,
    claim10_padding ['G'] 10 [['1', '@', 'c', '.', 'u', 's']] { padNumbers := true }
      (fun _ => .ok "gid") (fun _ => 0) (by rfl) (by decide) (by decide)⟩

end Bos
